import Mathlib

/-!
# Warehouse condition monitor: control logic of `esp-idf.cpp`

A shallow embedding of the on-device control logic (`handle_buttons`,
`update_display`, `shtc1_read` and the body of the `while (1)` loop of
`app_main`) together with the IEEE-754 arithmetic the C code performs on its
`float` thresholds and readings.

Conventions of the embedding
* the globals `current_screen`, `temp_threshold_high`, ... and the locals
  `temperature`, `humidity` of `app_main` are the fields of `Device`;
* every call into an external collaborator that the properties talk about
  (display, publish client, error log) is appended to `Device.trace`;
* the levels returned by `gpio_get_level` and the results returned by the two
  bus transfers during one loop iteration are inputs (`Pins`, `Bus`);
* blocking delays (`vTaskDelay`) have no effect on the state and are dropped;
* a `float` or `double` is an `Fp`; the operations round to nearest, ties to
  even, as the arithmetic of the ESP32 tool chain does.
-/

namespace Warehouse

/-! ## IEEE-754 binary32 / binary64 arithmetic -/

/-- Worker of `bitLen`: the first argument bounds the number of halvings. -/
def bitLenAux : Nat → Nat → Nat
  | 0, _ => 0
  | fuel + 1, n => if n = 0 then 0 else bitLenAux fuel (n / 2) + 1

/-- Number of binary digits of `n` (0 for 0): `2^(bitLen n - 1) ≤ n < 2^(bitLen n)`. -/
def bitLen (n : Nat) : Nat := bitLenAux n n

/-- Number of units in 1.0.  Magnitudes are counted in units of `2^-1074`, the
smallest positive binary64 number, so that every finite binary64 value (and
hence every finite binary32 value) is a whole number of units. -/
def unitsPerOne : Nat := 2 ^ 1074

/-- A binary interchange format, described relative to the unit `2^-1074`:
`prec` significand bits, smallest quantum `2^qmin` units, and overflow
threshold `2^top` units (the first power of two that is not finite). -/
structure Format where
  prec : Nat
  qmin : Nat
  top : Nat
  deriving DecidableEq, Repr

/-- C `float`: 24 significand bits, subnormal quantum `2^-149`, finite below `2^128`. -/
def binary32 : Format := { prec := 24, qmin := 925, top := 1202 }

/-- C `double`: 53 significand bits, subnormal quantum `2^-1074`, finite below `2^1024`. -/
def binary64 : Format := { prec := 53, qmin := 0, top := 2098 }

/-- A floating-point datum: a signed finite magnitude (in units of `2^-1074`),
an infinity, or a NaN. -/
inductive Fp where
  | fin (neg : Bool) (mag : Nat)
  | inf (neg : Bool)
  | nan
  deriving DecidableEq, Repr

/-- Round the non-negative rational `N / D` (in units) to the nearest multiple
of the quantum of its binade in format `f`, ties to the even multiple. -/
def roundMag (f : Format) (N D : Nat) : Nat :=
  let k := max (bitLen (N / D) - f.prec) f.qmin
  let M := D * 2 ^ k
  let q := N / M
  let r := N % M
  let m := if 2 * r < M then q else if M < 2 * r then q + 1 else if q % 2 = 0 then q else q + 1
  m * 2 ^ k

/-- Correctly rounded result (round-to-nearest-even) of the exact value
`± N / D` in format `f`; values that round to `2^top` or more overflow to infinity. -/
def Fp.round (f : Format) (neg : Bool) (N D : Nat) : Fp :=
  let r := roundMag f N D
  if 2 ^ f.top ≤ r then Fp.inf neg else Fp.fin neg r

/-- The integer (in units) denoted by a sign and a magnitude. -/
def signed (neg : Bool) (mag : Nat) : Int := if neg then -(mag : Int) else (mag : Int)

/-- Unary minus. -/
def Fp.neg : Fp → Fp
  | Fp.fin s a => Fp.fin (!s) a
  | Fp.inf s => Fp.inf (!s)
  | Fp.nan => Fp.nan

/-- Conversion to format `f` (the value is kept when representable, rounded otherwise). -/
def Fp.convert (f : Format) : Fp → Fp
  | Fp.fin s a => Fp.round f s a 1
  | Fp.inf s => Fp.inf s
  | Fp.nan => Fp.nan

/-- IEEE addition in format `f`. -/
def Fp.add (f : Format) : Fp → Fp → Fp
  | Fp.fin s a, Fp.fin t b =>
    let z : Int := signed s a + signed t b
    if z = 0 then Fp.fin (s && t) 0 else Fp.round f (decide (z < 0)) z.natAbs 1
  | Fp.fin _ _, Fp.inf t => Fp.inf t
  | Fp.inf s, Fp.fin _ _ => Fp.inf s
  | Fp.inf s, Fp.inf t => if s = t then Fp.inf s else Fp.nan
  | Fp.nan, _ => Fp.nan
  | _, Fp.nan => Fp.nan

/-- IEEE subtraction in format `f`. -/
def Fp.sub (f : Format) (x y : Fp) : Fp := Fp.add f x (Fp.neg y)

/-- IEEE multiplication in format `f`. -/
def Fp.mul (f : Format) : Fp → Fp → Fp
  | Fp.fin s a, Fp.fin t b => Fp.round f (xor s t) (a * b) unitsPerOne
  | Fp.fin s a, Fp.inf t => if a = 0 then Fp.nan else Fp.inf (xor s t)
  | Fp.inf s, Fp.fin t b => if b = 0 then Fp.nan else Fp.inf (xor s t)
  | Fp.inf s, Fp.inf t => Fp.inf (xor s t)
  | Fp.nan, _ => Fp.nan
  | _, Fp.nan => Fp.nan

/-- IEEE division in format `f`. -/
def Fp.div (f : Format) : Fp → Fp → Fp
  | Fp.fin s a, Fp.fin t b =>
    if b = 0 then (if a = 0 then Fp.nan else Fp.inf (xor s t))
    else Fp.round f (xor s t) (a * unitsPerOne) b
  | Fp.fin s _, Fp.inf t => Fp.fin (xor s t) 0
  | Fp.inf s, Fp.fin t _ => Fp.inf (xor s t)
  | Fp.inf _, Fp.inf _ => Fp.nan
  | Fp.nan, _ => Fp.nan
  | _, Fp.nan => Fp.nan

/-- IEEE `<` (false as soon as an operand is a NaN; `-0 < +0` is false). -/
def Fp.lt : Fp → Fp → Bool
  | Fp.fin s a, Fp.fin t b => decide (signed s a < signed t b)
  | Fp.fin _ _, Fp.inf t => !t
  | Fp.inf s, Fp.fin _ _ => s
  | Fp.inf s, Fp.inf t => s && !t
  | Fp.nan, _ => false
  | _, Fp.nan => false

/-- IEEE `>`. -/
def Fp.gt (x y : Fp) : Bool := Fp.lt y x

/-- IEEE `==` (`-0 == +0`, and a NaN equals nothing). -/
def Fp.eq : Fp → Fp → Bool
  | Fp.fin s a, Fp.fin t b => decide (signed s a = signed t b)
  | Fp.inf s, Fp.inf t => decide (s = t)
  | _, _ => false

/-- Magnitudes that format `f` represents exactly: a multiple of the quantum
of its own binade, below the overflow threshold. -/
def reprMag (f : Format) (a : Nat) : Prop :=
  a % 2 ^ (max (bitLen a - f.prec) f.qmin) = 0 ∧ a < 2 ^ f.top

instance (f : Format) (a : Nat) : Decidable (reprMag f a) := by
  unfold reprMag; infer_instance

/-- Finite data of format `f`. -/
def Fp.IsFinite (f : Format) : Fp → Prop
  | Fp.fin _ a => reprMag f a
  | _ => False

instance (f : Format) (x : Fp) : Decidable (Fp.IsFinite f x) := by
  cases x <;> unfold Fp.IsFinite <;> infer_instance

/-- The C constant of integer value `n` as a `double` (`30.0`, `0.5`, `175`, ...
are given through `ofInt` and `half`). -/
def Fp.ofInt (n : Int) : Fp := Fp.round binary64 (decide (n < 0)) (n.natAbs * unitsPerOne) 1

/-- The `double` constant `0.5`. -/
def Fp.half : Fp := Fp.round binary64 false unitsPerOne 2

/-- `(float) n` for an unsigned 16-bit `n`. -/
def Fp.ofU16 (n : Nat) : Fp := Fp.round binary32 false ((n % 65536) * unitsPerOne) 1

/-- The `float` value of an integer constant (exact for every magnitude below `2^24`). -/
def floatOfInt (n : Int) : Fp := Fp.convert binary32 (Fp.ofInt n)

/-- The `float` of value `j / 2`. -/
def Fp.ofHalves (j : Int) : Fp := Fp.fin (decide (j < 0)) (j.natAbs * 2 ^ 1073)

/-- The `float` of integer value `j`. -/
def Fp.ofWhole (j : Int) : Fp := Fp.fin (decide (j < 0)) (j.natAbs * 2 ^ 1074)

/-- The exact, unrounded sum of two finite data (a NaN when one is not finite). -/
def Fp.exactAdd : Fp → Fp → Fp
  | Fp.fin s a, Fp.fin u h =>
    Fp.fin (decide (signed s a + signed u h < 0)) (signed s a + signed u h).natAbs
  | _, _ => Fp.nan

/-- The exact, unrounded difference of two finite data. -/
def Fp.exactSub (x y : Fp) : Fp := Fp.exactAdd x (Fp.neg y)

/-- The rational number denoted by a finite datum (0 for infinities and NaN). -/
def Fp.toRat : Fp → ℚ
  | Fp.fin s a => (signed s a : ℚ) / 2 ^ 1074
  | _ => 0

/-! ## Data model (globals of `esp-idf.cpp`) -/

/-- The C enumeration `screen_t` (lines 65-72); the enumerators have the values 0..5. -/
inductive screen_t where
  | MAIN_SCREEN
  | MENU_SCREEN
  | SET_TEMP_THRESHOLD_HIGH
  | SET_TEMP_THRESHOLD_LOW
  | SET_HUM_THRESHOLD_HIGH
  | SET_HUM_THRESHOLD_LOW
  deriving DecidableEq, Repr

open screen_t

/-- Integer value of an enumerator. -/
def screen_t.value : screen_t → Nat
  | MAIN_SCREEN => 0
  | MENU_SCREEN => 1
  | SET_TEMP_THRESHOLD_HIGH => 2
  | SET_TEMP_THRESHOLD_LOW => 3
  | SET_HUM_THRESHOLD_HIGH => 4
  | SET_HUM_THRESHOLD_LOW => 5

/-- The enumerator of a given integer value, as stored back into `current_screen`
(the code only stores values reduced modulo 6, so the last case is never used). -/
def screen_t.ofValue : Nat → screen_t
  | 0 => MAIN_SCREEN
  | 1 => MENU_SCREEN
  | 2 => SET_TEMP_THRESHOLD_HIGH
  | 3 => SET_TEMP_THRESHOLD_LOW
  | 4 => SET_HUM_THRESHOLD_HIGH
  | 5 => SET_HUM_THRESHOLD_LOW
  | _ + 6 => MAIN_SCREEN

/-- `TEMP_THRESHOLD_HIGH` (line 38), a `double` constant. -/
def TEMP_THRESHOLD_HIGH : Fp := Fp.ofInt 30

/-- `TEMP_THRESHOLD_LOW` (line 39). -/
def TEMP_THRESHOLD_LOW : Fp := Fp.ofInt 20

/-- `HUM_THRESHOLD_HIGH` (line 40). -/
def HUM_THRESHOLD_HIGH : Fp := Fp.ofInt 60

/-- `HUM_THRESHOLD_LOW` (line 41). -/
def HUM_THRESHOLD_LOW : Fp := Fp.ofInt 30

/-- `ESP_OK`, the success value of `esp_err_t`. -/
def ESP_OK : Int := 0

/-- Calls into the external collaborators, in the order they are made. -/
inductive Event where
  /-- `update_display`: full redraw of screen `s` showing the numbers `shown`. -/
  | display (s : screen_t) (shown : List Fp)
  /-- Main loop, lines 402-419: the reading and the two warning lines are drawn
  (`tempOut` / `humOut` tell whether the out-of-range text is drawn). -/
  | reading (temp hum : Fp) (tempOut humOut : Bool)
  /-- `esp_mqtt_client_publish` on `/sensor/warning` with both values (line 424). -/
  | publish (temp hum : Fp)
  /-- `ssd1306_refresh_gram` at the end of a successful reading (line 427). -/
  | refresh
  /-- `ESP_LOGE(TAG, "Failed to read data from SHTC1 sensor")` (line 429). -/
  | logReadFailure
  deriving DecidableEq, Repr

/-- The mutable state: the five globals (lines 74-78), the two `uint16_t`
locals of `app_main` (line 390) and the calls made so far. -/
structure Device where
  current_screen : screen_t
  temp_threshold_high : Fp
  temp_threshold_low : Fp
  hum_threshold_high : Fp
  hum_threshold_low : Fp
  temperature : Nat
  humidity : Nat
  trace : List Event
  deriving DecidableEq, Repr

/-- State at the start of the loop: the initialisers of lines 74-78 (each
`double` constant is converted to `float`) and no call made yet; the two locals
are not initialised by the C code, 0 stands for their indeterminate content. -/
def Device.init : Device :=
  { current_screen := MAIN_SCREEN
    temp_threshold_high := Fp.convert binary32 TEMP_THRESHOLD_HIGH
    temp_threshold_low := Fp.convert binary32 TEMP_THRESHOLD_LOW
    hum_threshold_high := Fp.convert binary32 HUM_THRESHOLD_HIGH
    hum_threshold_low := Fp.convert binary32 HUM_THRESHOLD_LOW
    temperature := 0
    humidity := 0
    trace := [] }

/-- Levels seen by `handle_buttons` in one call: for each pin whether the first
`gpio_get_level` returns 1, and whether the one after the 100 ms wait does. -/
structure Pins where
  mode : Bool
  ok : Bool
  up : Bool
  down : Bool
  mode_again : Bool
  ok_again : Bool
  up_again : Bool
  down_again : Bool
  deriving DecidableEq, Repr

/-- What the I2C bus answers during one call of `shtc1_read`: the return value
of the write, the return value of the read and the six bytes it delivers. -/
structure Bus where
  write_ret : Int
  read_ret : Int
  data0 : Nat
  data1 : Nat
  data2 : Nat
  data3 : Nat
  data4 : Nat
  data5 : Nat
  deriving DecidableEq, Repr

/-! ## Operations -/

/-- `x += c` for a `float` object `x` and a `double` constant `c`: `x` is
promoted to `double`, the sum is taken in `double` and converted back to `float`. -/
def addAssign (x c : Fp) : Fp :=
  Fp.convert binary32 (Fp.add binary64 (Fp.convert binary64 x) c)

/-- `x -= c` for a `float` object `x` and a `double` constant `c`. -/
def subAssign (x c : Fp) : Fp :=
  Fp.convert binary32 (Fp.sub binary64 (Fp.convert binary64 x) c)

/-- `update_display` (lines 144-182): one full redraw of the current screen. -/
def update_display (d : Device) : Device :=
  let shown : List Fp :=
    match d.current_screen with
    | MAIN_SCREEN => [d.temp_threshold_high, d.hum_threshold_high]
    | MENU_SCREEN => []
    | SET_TEMP_THRESHOLD_HIGH => [d.temp_threshold_high]
    | SET_TEMP_THRESHOLD_LOW => [d.temp_threshold_low]
    | SET_HUM_THRESHOLD_HIGH => [d.hum_threshold_high]
    | SET_HUM_THRESHOLD_LOW => [d.hum_threshold_low]
  { d with trace := d.trace ++ [Event.display d.current_screen shown] }

/-- `handle_buttons` (lines 185-248). -/
def handle_buttons (p : Pins) (d : Device) : Device :=
  if p.mode then
    if p.mode_again then
      update_display { d with current_screen := screen_t.ofValue ((d.current_screen.value + 1) % 6) }
    else d
  else if p.ok then
    if p.ok_again then
      if d.current_screen ≠ MAIN_SCREEN then
        update_display { d with current_screen := MAIN_SCREEN }
      else d
    else d
  else if p.up then
    if p.up_again then
      update_display
        (match d.current_screen with
         | SET_TEMP_THRESHOLD_HIGH =>
           { d with temp_threshold_high := addAssign d.temp_threshold_high Fp.half }
         | SET_TEMP_THRESHOLD_LOW =>
           { d with temp_threshold_low := addAssign d.temp_threshold_low Fp.half }
         | SET_HUM_THRESHOLD_HIGH =>
           { d with hum_threshold_high := addAssign d.hum_threshold_high (Fp.ofInt 1) }
         | SET_HUM_THRESHOLD_LOW =>
           { d with hum_threshold_low := addAssign d.hum_threshold_low (Fp.ofInt 1) }
         | _ => d)
    else d
  else if p.down then
    if p.down_again then
      update_display
        (match d.current_screen with
         | SET_TEMP_THRESHOLD_HIGH =>
           { d with temp_threshold_high := subAssign d.temp_threshold_high Fp.half }
         | SET_TEMP_THRESHOLD_LOW =>
           { d with temp_threshold_low := subAssign d.temp_threshold_low Fp.half }
         | SET_HUM_THRESHOLD_HIGH =>
           { d with hum_threshold_high := subAssign d.hum_threshold_high (Fp.ofInt 1) }
         | SET_HUM_THRESHOLD_LOW =>
           { d with hum_threshold_low := subAssign d.hum_threshold_low (Fp.ofInt 1) }
         | _ => d)
    else d
  else d

/-- Line 308: `(data[0] << 8) | data[1]` stored into a `uint16_t` (the bytes are `uint8_t`). -/
def Bus.rawTemperature (b : Bus) : Nat :=
  (((b.data0 % 256) <<< 8) ||| (b.data1 % 256)) % 65536

/-- Line 309: `(data[3] << 8) | data[4]` stored into a `uint16_t`. -/
def Bus.rawHumidity (b : Bus) : Nat :=
  (((b.data3 % 256) <<< 8) ||| (b.data4 % 256)) % 65536

/-- `shtc1_read` (lines 286-312): the returned `esp_err_t`, and the state in
which `*temperature` and `*humidity` are written only when both transfers succeed. -/
def shtc1_read (b : Bus) (d : Device) : Int × Device :=
  if b.write_ret ≠ ESP_OK then (b.write_ret, d)
  else if b.read_ret ≠ ESP_OK then (b.read_ret, d)
  else (ESP_OK, { d with temperature := b.rawTemperature, humidity := b.rawHumidity })

/-- Line 398: `float temp = -45 + 175 * ((float)temperature / 65535.0);`
(the quotient, the product and the sum are `double` operations). -/
def convertTemperature (temperature : Nat) : Fp :=
  Fp.convert binary32
    (Fp.add binary64 (Fp.ofInt (-45))
      (Fp.mul binary64 (Fp.ofInt 175)
        (Fp.div binary64 (Fp.convert binary64 (Fp.ofU16 temperature)) (Fp.ofInt 65535))))

/-- Line 399: `float hum = 100 * ((float)humidity / 65535.0);`. -/
def convertHumidity (humidity : Nat) : Fp :=
  Fp.convert binary32
    (Fp.mul binary64 (Fp.ofInt 100)
      (Fp.div binary64 (Fp.convert binary64 (Fp.ofU16 humidity)) (Fp.ofInt 65535)))

/-- Condition of line 408. -/
def tempOutOfRange (temp : Fp) (d : Device) : Bool :=
  Fp.gt temp d.temp_threshold_high || Fp.lt temp d.temp_threshold_low

/-- Condition of line 414. -/
def humOutOfRange (hum : Fp) (d : Device) : Bool :=
  Fp.gt hum d.hum_threshold_high || Fp.lt hum d.hum_threshold_low

/-- Value of the local `warning` when line 421 is reached. -/
def warning (temp hum : Fp) (d : Device) : Bool :=
  let w := false
  let w := if tempOutOfRange temp d then true else w
  let w := if humOutOfRange hum d then true else w
  w

/-- Lines 401-427: draw the reading, evaluate the thresholds, publish on a warning. -/
def show_and_alert (temp hum : Fp) (d : Device) : Device :=
  let d := { d with trace := d.trace ++
    [Event.reading temp hum (tempOutOfRange temp d) (humOutOfRange hum d)] }
  let d := if warning temp hum d then
      { d with trace := d.trace ++ [Event.publish temp hum] }
    else d
  { d with trace := d.trace ++ [Event.refresh] }

/-- Lines 394-431: the part of one loop iteration that depends on the sensor. -/
def sensor_part (b : Bus) (d : Device) : Device :=
  if d.current_screen = MAIN_SCREEN then
    let r := shtc1_read b d
    if r.1 = ESP_OK then
      show_and_alert (convertTemperature r.2.temperature) (convertHumidity r.2.humidity) r.2
    else { r.2 with trace := r.2.trace ++ [Event.logReadFailure] }
  else d

/-- One iteration of the `while (1)` loop of `app_main` (lines 392-433). -/
def tick (p : Pins) (b : Bus) (d : Device) : Device :=
  sensor_part b (handle_buttons p d)

/-- Number of `esp_mqtt_client_publish` calls recorded in a trace. -/
def publishCount : List Event → Nat
  | [] => 0
  | Event.publish _ _ :: es => publishCount es + 1
  | _ :: es => publishCount es

/-- The externally meaningful configuration: screen state and the four thresholds. -/
def Device.config (d : Device) : screen_t × Fp × Fp × Fp × Fp :=
  (d.current_screen, d.temp_threshold_high, d.temp_threshold_low,
    d.hum_threshold_high, d.hum_threshold_low)

/-- The four thresholds. -/
def Device.thresholds (d : Device) : Fp × Fp × Fp × Fp :=
  (d.temp_threshold_high, d.temp_threshold_low, d.hum_threshold_high, d.hum_threshold_low)

/-! ## The four button actions

An action is what `handle_buttons` does when exactly one input is active and is
still active after the settle interval. -/

/-- Pin levels in which no input is active. -/
def Pins.idle : Pins :=
  { mode := false, ok := false, up := false, down := false
    mode_again := false, ok_again := false, up_again := false, down_again := false }

/-- `Next`: a debounced press of Mode. -/
def Next (d : Device) : Device :=
  handle_buttons { Pins.idle with mode := true, mode_again := true } d

/-- `Confirm`: a debounced press of Ok. -/
def Confirm (d : Device) : Device :=
  handle_buttons { Pins.idle with ok := true, ok_again := true } d

/-- `Increment`: a debounced press of Up. -/
def Increment (d : Device) : Device :=
  handle_buttons { Pins.idle with up := true, up_again := true } d

/-- `Decrement`: a debounced press of Down. -/
def Decrement (d : Device) : Device :=
  handle_buttons { Pins.idle with down := true, down_again := true } d

/-! ## Vocabulary of the design document -/

/-- Successor of a screen state in enumeration order, the last one wrapping to the first. -/
def screen_t.succ : screen_t → screen_t
  | MAIN_SCREEN => MENU_SCREEN
  | MENU_SCREEN => SET_TEMP_THRESHOLD_HIGH
  | SET_TEMP_THRESHOLD_HIGH => SET_TEMP_THRESHOLD_LOW
  | SET_TEMP_THRESHOLD_LOW => SET_HUM_THRESHOLD_HIGH
  | SET_HUM_THRESHOLD_HIGH => SET_HUM_THRESHOLD_LOW
  | SET_HUM_THRESHOLD_LOW => MAIN_SCREEN

/-- The semantic actions of the design (`ButtonAction`). -/
inductive ButtonAction where
  | None
  | Next
  | Confirm
  | Increment
  | Decrement
  deriving DecidableEq, Repr

/-- Polling contract in the words of the design: the inputs are checked in the
order Mode, Ok, Up, Down; the first one found active is re-sampled after the
settle interval and yields its action if it is still active, `None` otherwise. -/
def specPoll (p : Pins) : ButtonAction :=
  if p.mode then (if p.mode_again then ButtonAction.Next else ButtonAction.None)
  else if p.ok then (if p.ok_again then ButtonAction.Confirm else ButtonAction.None)
  else if p.up then (if p.up_again then ButtonAction.Increment else ButtonAction.None)
  else if p.down then (if p.down_again then ButtonAction.Decrement else ButtonAction.None)
  else ButtonAction.None

/-- Effect of a semantic action on the device. -/
def perform : ButtonAction → Device → Device
  | ButtonAction.None, d => d
  | ButtonAction.Next, d => Next d
  | ButtonAction.Confirm, d => Confirm d
  | ButtonAction.Increment, d => Increment d
  | ButtonAction.Decrement, d => Decrement d

/-- Temperature formula of the design, in exact arithmetic:
`temperatureC = -45 + 175 * (rawTemp / 65535)`. -/
def specTemperatureC (rawTemp : Nat) : ℚ := -45 + 175 * ((rawTemp : ℚ) / 65535)

/-- Humidity formula of the design, in exact arithmetic:
`humidityPct = 100 * (rawHum / 65535)`. -/
def specHumidityPct (rawHum : Nat) : ℚ := 100 * ((rawHum : ℚ) / 65535)

/-! ## Sample inputs -/

/-- A bus on which the measurement command is not acknowledged: the write
returns `ESP_ERR_TIMEOUT` (0x107). -/
def Bus.writeTimeout : Bus :=
  { write_ret := 263, read_ret := 0, data0 := 0, data1 := 0, data2 := 0, data3 := 0,
    data4 := 0, data5 := 0 }

/-- A bus on which both transfers succeed and the sensor returns the raw codes
(0, 0), i.e. -45 degrees Celsius and 0 % relative humidity. -/
def Bus.allZero : Bus :=
  { write_ret := 0, read_ret := 0, data0 := 0, data1 := 0, data2 := 0, data3 := 0,
    data4 := 0, data5 := 0 }

/-- The Edit screen for the upper humidity bound, holding 16777216.0 (`2^24`). -/
def Device.humHighAt2p24 : Device :=
  { Device.init with
    current_screen := SET_HUM_THRESHOLD_HIGH
    hum_threshold_high := floatOfInt 16777216 }

/-- The Edit screen for the upper temperature bound, holding 8388608.0 (`2^23`),
the value the bound reaches when Up is kept pressed long enough from 30.0. -/
def Device.tempHighAt2p23 : Device :=
  { Device.init with
    current_screen := SET_TEMP_THRESHOLD_HIGH
    temp_threshold_high := floatOfInt 8388608 }

/-! ## Exactness of the arithmetic on representable values -/

theorem roundMag_exact (f : Format) (n : Nat)
    (h : n % 2 ^ (max (bitLen n - f.prec) f.qmin) = 0) : roundMag f n 1 = n := by
  unfold roundMag
  simp only [Nat.div_one, Nat.one_mul]
  have hpos : 0 < 2 ^ (max (bitLen n - f.prec) f.qmin) := Nat.pow_pos (by decide)
  rw [h]
  simp only [Nat.mul_zero, hpos, if_true]
  exact Nat.div_mul_cancel (Nat.dvd_of_mod_eq_zero h)

theorem Fp.round_exact (f : Format) (s : Bool) (n : Nat) (h : reprMag f n) :
    Fp.round f s n 1 = Fp.fin s n := by
  unfold Fp.round
  simp only [roundMag_exact f n h.1]
  rw [if_neg (Nat.not_le.mpr h.2)]

theorem Fp.convert_exact (f : Format) (s : Bool) (n : Nat) (h : reprMag f n) :
    Fp.convert f (Fp.fin s n) = Fp.fin s n := by
  unfold Fp.convert
  exact Fp.round_exact f s n h

theorem reprMag_zero (f : Format) : reprMag f 0 := by
  refine ⟨Nat.zero_mod _, Nat.pow_pos (by decide)⟩

theorem reprMag_binary32_binary64 (a : Nat) (h : reprMag binary32 a) : reprMag binary64 a := by
  obtain ⟨h1, h2⟩ := h
  refine ⟨?_, ?_⟩
  · have hd : 2 ^ (max (bitLen a - binary64.prec) binary64.qmin)
        ∣ 2 ^ (max (bitLen a - binary32.prec) binary32.qmin) := by
      apply Nat.pow_dvd_pow
      simp only [binary32, binary64]
      omega
    exact Nat.mod_eq_zero_of_dvd (Nat.dvd_trans hd (Nat.dvd_of_mod_eq_zero h1))
  · calc a < 2 ^ binary32.top := h2
      _ ≤ 2 ^ binary64.top := Nat.pow_le_pow_right (by decide) (by decide)

theorem signed_natAbs (z : Int) : signed (decide (z < 0)) z.natAbs = z := by
  unfold signed
  by_cases hz : z < 0
  · simp only [hz, decide_True, if_true]; omega
  · simp only [hz, decide_False]; simp; omega

theorem signed_decide_natAbs_mul (j : Int) (c : Nat) :
    signed (decide (j < 0)) (j.natAbs * c) = j * (c : Int) := by
  unfold signed
  by_cases hj : j < 0
  · simp only [hj, decide_True, if_true]
    push_cast
    rw [Int.abs_eq_natAbs, ← Int.abs_eq_natAbs, abs_of_neg hj]
    ring
  · simp only [hj, decide_False]
    push_cast
    rw [abs_of_nonneg (by omega)]

/-- Value of `x ± c` computed in `double` and stored in a `float` when the exact
result is a binary32 value. -/
theorem add_then_narrow_value (s u : Bool) (a h : Nat) (ha : reprMag binary32 a)
    (hz : reprMag binary32 (signed s a + signed u h).natAbs) :
    Fp.convert binary32 (Fp.add binary64 (Fp.convert binary64 (Fp.fin s a)) (Fp.fin u h))
      = if signed s a + signed u h = 0 then Fp.fin (s && u) 0
        else Fp.fin (decide (signed s a + signed u h < 0)) (signed s a + signed u h).natAbs := by
  rw [Fp.convert_exact binary64 s a (reprMag_binary32_binary64 a ha)]
  unfold Fp.add
  simp only
  by_cases hzero : signed s a + signed u h = 0
  · rw [if_pos hzero, if_pos hzero, Fp.convert_exact binary32 _ 0 (reprMag_zero _)]
  · rw [if_neg hzero, if_neg hzero, Fp.round_exact binary64 _ _ (reprMag_binary32_binary64 _ hz),
      Fp.convert_exact binary32 _ _ hz]

/-- A `float` plus or minus a `double` constant is exact as soon as the exact
result is a binary32 value. -/
theorem add_then_narrow_exact (s u : Bool) (a h : Nat) (ha : reprMag binary32 a)
    (hz : reprMag binary32 (signed s a + signed u h).natAbs) :
    ∃ t r, Fp.convert binary32 (Fp.add binary64 (Fp.convert binary64 (Fp.fin s a)) (Fp.fin u h))
        = Fp.fin t r
      ∧ signed t r = signed s a + signed u h ∧ reprMag binary32 r := by
  rw [Fp.convert_exact binary64 s a (reprMag_binary32_binary64 a ha)]
  unfold Fp.add
  simp only
  by_cases hzero : signed s a + signed u h = 0
  · rw [if_pos hzero, Fp.convert_exact binary32 _ 0 (reprMag_zero _)]
    refine ⟨s && u, 0, rfl, ?_, reprMag_zero _⟩
    rw [hzero]; simp [signed]
  · rw [if_neg hzero, Fp.round_exact binary64 _ _ (reprMag_binary32_binary64 _ hz),
      Fp.convert_exact binary32 _ _ hz]
    exact ⟨_, _, rfl, signed_natAbs _, hz⟩

set_option maxRecDepth 100000 in
set_option exponentiation.threshold 5000 in
theorem Fp.half_eq : Fp.half = Fp.fin false (2 ^ 1073) := by decide

set_option maxRecDepth 100000 in
set_option exponentiation.threshold 5000 in
theorem Fp.one_eq : Fp.ofInt 1 = Fp.fin false (2 ^ 1074) := by decide

set_option maxRecDepth 100000 in
set_option exponentiation.threshold 5000 in
theorem Fp.ofInt_constants :
    Fp.ofInt 65535 = Fp.fin false (65535 * 2 ^ 1074)
    ∧ Fp.ofInt 175 = Fp.fin false (175 * 2 ^ 1074)
    ∧ Fp.ofInt 100 = Fp.fin false (100 * 2 ^ 1074)
    ∧ Fp.ofInt (-45) = Fp.fin true (45 * 2 ^ 1074) := by
  decide

/-- `x += c` is exact when the exact sum is a binary32 value. -/
theorem addAssign_exact (x : Fp) (h : Nat) (hx : Fp.IsFinite binary32 x)
    (hs : Fp.IsFinite binary32 (Fp.exactAdd x (Fp.fin false h))) :
    Fp.IsFinite binary32 (addAssign x (Fp.fin false h))
    ∧ Fp.eq (addAssign x (Fp.fin false h)) (Fp.exactAdd x (Fp.fin false h)) = true := by
  cases x with
  | fin s a =>
    obtain ⟨t, r, h1, h2, h3⟩ := add_then_narrow_exact s false a h hx hs
    unfold addAssign
    rw [h1]
    refine ⟨h3, ?_⟩
    unfold Fp.exactAdd Fp.eq
    simp only [signed_natAbs, h2, decide_True]
  | inf s => exact absurd hx (by simp [Fp.IsFinite])
  | nan => exact absurd hx (by simp [Fp.IsFinite])

/-- `x -= c` is exact when the exact difference is a binary32 value. -/
theorem subAssign_exact (x : Fp) (h : Nat) (hx : Fp.IsFinite binary32 x)
    (hs : Fp.IsFinite binary32 (Fp.exactSub x (Fp.fin false h))) :
    Fp.IsFinite binary32 (subAssign x (Fp.fin false h))
    ∧ Fp.eq (subAssign x (Fp.fin false h)) (Fp.exactSub x (Fp.fin false h)) = true := by
  cases x with
  | fin s a =>
    obtain ⟨t, r, h1, h2, h3⟩ := add_then_narrow_exact s true a h hx hs
    unfold subAssign Fp.sub
    have hn : Fp.neg (Fp.fin false h) = Fp.fin true h := rfl
    rw [hn, h1]
    refine ⟨h3, ?_⟩
    unfold Fp.exactSub Fp.exactAdd Fp.eq
    simp only [hn, signed_natAbs, h2, decide_True]
  | inf s => exact absurd hx (by simp [Fp.IsFinite])
  | nan => exact absurd hx (by simp [Fp.IsFinite])

/-- Adding and then subtracting the same constant gives back a finite
binary32 value when the intermediate sum is exact. -/
theorem add_sub_roundtrip (x : Fp) (h : Nat) (hx : Fp.IsFinite binary32 x)
    (hs : Fp.IsFinite binary32 (Fp.exactAdd x (Fp.fin false h))) :
    Fp.eq (subAssign (addAssign x (Fp.fin false h)) (Fp.fin false h)) x = true := by
  cases x with
  | fin s a =>
    obtain ⟨t, r, h1, h2, h3⟩ := add_then_narrow_exact s false a h hx hs
    have hback : signed t r + signed true h = signed s a := by
      rw [h2]; simp [signed]
    have hz : reprMag binary32 (signed t r + signed true h).natAbs := by
      rw [hback]
      have : (signed s a).natAbs = a := by
        unfold signed; cases s <;> simp
      rw [this]; exact hx
    obtain ⟨t2, r2, k1, k2, _⟩ := add_then_narrow_exact t true r h h3 hz
    unfold addAssign
    rw [h1]
    unfold subAssign Fp.sub
    have hn : Fp.neg (Fp.fin false h) = Fp.fin true h := rfl
    rw [hn, k1]
    unfold Fp.eq
    simp only [k2, hback, decide_True]
  | inf s => exact absurd hx (by simp [Fp.IsFinite])
  | nan => exact absurd hx (by simp [Fp.IsFinite])

theorem Fp.lt_irrefl (x : Fp) : Fp.lt x x = false := by
  cases x with
  | fin s a => simp [Fp.lt]
  | inf s => cases s <;> rfl
  | nan => rfl

set_option maxRecDepth 100000 in
set_option exponentiation.threshold 5000 in
theorem low_bound_crosses_high :
    Fp.gt (addAssign (floatOfInt 30) Fp.half) (floatOfInt 30) = true := by decide

/-! ## Accuracy of rounding -/

theorem bitLenAux_le (fuel : Nat) : ∀ n m : Nat, n < 2 ^ m → bitLenAux fuel n ≤ m := by
  induction fuel with
  | zero => intro n m _; exact Nat.zero_le _
  | succ fuel ih =>
    intro n m h
    unfold bitLenAux
    by_cases hn : n = 0
    · rw [if_pos hn]; exact Nat.zero_le _
    · rw [if_neg hn]
      cases m with
      | zero => simp at h; exact absurd h hn
      | succ m =>
        have : n / 2 < 2 ^ m := by
          rw [Nat.pow_succ] at h
          omega
        exact Nat.succ_le_succ (ih _ _ this)

theorem bitLen_le {n m : Nat} (h : n < 2 ^ m) : bitLen n ≤ m := bitLenAux_le n n m h

theorem lt_pow_bitLenAux (fuel : Nat) : ∀ n : Nat, n ≤ fuel → n < 2 ^ bitLenAux fuel n := by
  induction fuel with
  | zero =>
    intro n hn
    have : n = 0 := Nat.le_zero.mp hn
    subst this
    exact Nat.pow_pos (by decide)
  | succ fuel ih =>
    intro n hn
    unfold bitLenAux
    by_cases h0 : n = 0
    · rw [if_pos h0, h0]; exact Nat.pow_pos (by decide)
    · rw [if_neg h0]
      have h2 : n / 2 ≤ fuel := by omega
      have := ih (n / 2) h2
      rw [Nat.pow_succ]
      omega

theorem lt_pow_bitLen (n : Nat) : n < 2 ^ bitLen n := lt_pow_bitLenAux n n (Nat.le_refl n)

/-- The rounded magnitude differs from the exact quotient by at most half a
quantum, and the quantum of a value below `2^j` is at most `2^(j - prec)`
(or the smallest quantum of the format). -/
theorem roundMag_close (f : Format) (N D j e : Nat) (hD : 0 < D) (hN : N < D * 2 ^ j)
    (he : max (j - f.prec) f.qmin ≤ e) :
    2 * (roundMag f N D * D) ≤ 2 * N + D * 2 ^ e
    ∧ 2 * N ≤ 2 * (roundMag f N D * D) + D * 2 ^ e := by
  have hq : N / D < 2 ^ j := (Nat.div_lt_iff_lt_mul hD).mpr (by rw [Nat.mul_comm]; exact hN)
  have hb : bitLen (N / D) ≤ j := bitLen_le hq
  have hk : max (bitLen (N / D) - f.prec) f.qmin ≤ e := by omega
  unfold roundMag
  simp only
  generalize max (bitLen (N / D) - f.prec) f.qmin = k at hk
  have hpow : 2 ^ k ≤ 2 ^ e := Nat.pow_le_pow_right (by decide) hk
  have hM : D * 2 ^ k ≤ D * 2 ^ e := Nat.mul_le_mul_left D hpow
  have hMpos : 0 < D * 2 ^ k := Nat.mul_pos hD (Nat.pow_pos (by decide))
  generalize hMdef : D * 2 ^ k = M at hM hMpos
  have hdm := Nat.div_add_mod N M
  have hr := Nat.mod_lt N hMpos
  have e1 : N / M * 2 ^ k * D = M * (N / M) := by rw [← hMdef]; ring
  have e2 : (N / M + 1) * 2 ^ k * D = M * (N / M) + M := by rw [← hMdef]; ring
  split_ifs
  all_goals first
    | (rw [e1]; omega)
    | (rw [e2]; omega)

/-- Rounding always delivers a multiple of the quantum of the binade the
result lies in: the result is a value of the format unless it overflows. -/
theorem roundMag_repr (f : Format) (N D : Nat) (hp : 0 < f.prec) :
    roundMag f N D % 2 ^ (max (bitLen (roundMag f N D) - f.prec) f.qmin) = 0 := by
  have hb := lt_pow_bitLen (N / D)
  unfold roundMag
  simp only
  generalize hk : max (bitLen (N / D) - f.prec) f.qmin = k
  have hkq : f.qmin ≤ k := by omega
  have hbk : bitLen (N / D) ≤ f.prec + k := by omega
  have hq : N / (D * 2 ^ k) < 2 ^ f.prec := by
    rw [← Nat.div_div_eq_div_mul]
    apply (Nat.div_lt_iff_lt_mul (Nat.pow_pos (by decide))).mpr
    calc N / D < 2 ^ bitLen (N / D) := hb
      _ ≤ 2 ^ (f.prec + k) := Nat.pow_le_pow_right (by decide) hbk
      _ = 2 ^ f.prec * 2 ^ k := Nat.pow_add _ _ _
  generalize N / (D * 2 ^ k) = q at hq
  generalize N % (D * 2 ^ k) = r
  generalize D * 2 ^ k = M
  have key : ∀ m : Nat, m ≤ 2 ^ f.prec →
      m * 2 ^ k % 2 ^ (max (bitLen (m * 2 ^ k) - f.prec) f.qmin) = 0 := by
    intro m hm
    apply Nat.mod_eq_zero_of_dvd
    by_cases hlt : m < 2 ^ f.prec
    · have h1 : m * 2 ^ k < 2 ^ (f.prec + k) := by
        rw [Nat.pow_add]
        exact Nat.mul_lt_mul_of_pos_right hlt (Nat.pow_pos (by decide))
      have h2 : bitLen (m * 2 ^ k) ≤ f.prec + k := bitLen_le h1
      exact Nat.dvd_trans (Nat.pow_dvd_pow 2 (by omega)) (Nat.dvd_mul_left _ _)
    · have hm2 : m = 2 ^ f.prec := by omega
      subst hm2
      rw [← Nat.pow_add]
      have h1 : 2 ^ (f.prec + k) < 2 ^ (f.prec + k + 1) :=
        Nat.pow_lt_pow_right (by decide) (by omega)
      have h2 : bitLen (2 ^ (f.prec + k)) ≤ f.prec + k + 1 := bitLen_le h1
      exact Nat.pow_dvd_pow 2 (by omega)
  split_ifs
  all_goals apply key
  all_goals omega

theorem Fp.round_fin (f : Format) (s : Bool) (N D : Nat) (h : roundMag f N D < 2 ^ f.top) :
    Fp.round f s N D = Fp.fin s (roundMag f N D) := by
  unfold Fp.round
  simp only
  rw [if_neg (Nat.not_le.mpr h)]

/-- Every result of `Fp.round` is a finite value of the format or an infinity. -/
theorem Fp.round_isFinite (f : Format) (s : Bool) (N D : Nat) (hp : 0 < f.prec) :
    Fp.IsFinite f (Fp.round f s N D) ∨ Fp.round f s N D = Fp.inf s := by
  unfold Fp.round
  simp only
  by_cases h : 2 ^ f.top ≤ roundMag f N D
  · rw [if_pos h]; exact Or.inr rfl
  · rw [if_neg h]
    exact Or.inl ⟨roundMag_repr f N D hp, Nat.not_le.mp h⟩

theorem reprMag_mul_pow (f : Format) (m t j : Nat) (hm : m < 2 ^ j)
    (hk : max (j + t - f.prec) f.qmin ≤ t) (htop : j + t ≤ f.top) : reprMag f (m * 2 ^ t) := by
  have hlt : m * 2 ^ t < 2 ^ (j + t) := by
    rw [Nat.pow_add]
    exact Nat.mul_lt_mul_of_pos_right hm (Nat.pow_pos (by decide))
  have hb : bitLen (m * 2 ^ t) ≤ j + t := bitLen_le hlt
  refine ⟨?_, Nat.lt_of_lt_of_le hlt (Nat.pow_le_pow_right (by decide) htop)⟩
  have hd : 2 ^ (max (bitLen (m * 2 ^ t) - f.prec) f.qmin) ∣ 2 ^ t :=
    Nat.pow_dvd_pow 2 (by omega)
  exact Nat.mod_eq_zero_of_dvd (Nat.dvd_trans hd (Nat.dvd_mul_left _ _))

set_option exponentiation.threshold 5000 in
theorem reprMag_halves (m : Nat) (hm : m ≤ 2 ^ 24) : reprMag binary32 (m * 2 ^ 1073) := by
  by_cases hlt : m < 2 ^ 24
  · exact reprMag_mul_pow binary32 m 1073 24 hlt (by simp [binary32]) (by simp [binary32])
  · have he : m = 2 ^ 24 := by omega
    have h2 : m * 2 ^ 1073 = 1 * 2 ^ 1097 := by
      rw [he, ← Nat.pow_add, Nat.one_mul]
    rw [h2]
    exact reprMag_mul_pow binary32 1 1097 1 (by decide) (by simp [binary32])
      (by simp [binary32])

set_option exponentiation.threshold 5000 in
theorem reprMag_wholes (m : Nat) (hm : m ≤ 2 ^ 24) : reprMag binary32 (m * 2 ^ 1074) := by
  by_cases hlt : m < 2 ^ 24
  · exact reprMag_mul_pow binary32 m 1074 24 hlt (by simp [binary32]) (by simp [binary32])
  · have he : m = 2 ^ 24 := by omega
    have h2 : m * 2 ^ 1074 = 1 * 2 ^ 1098 := by
      rw [he, ← Nat.pow_add, Nat.one_mul]
    rw [h2]
    exact reprMag_mul_pow binary32 1 1098 1 (by decide) (by simp [binary32])
      (by simp [binary32])

set_option exponentiation.threshold 5000 in
/-- Every multiple `j / 2` of one half with `-2^23 ≤ j / 2 < 2^23` is a `float`,
and so is its sum with 0.5: the round trip of C5 applies to all of them. -/
theorem halves_step_representable (j : Int) (h1 : -(2 ^ 24) ≤ j) (h2 : j < 2 ^ 24) :
    Fp.IsFinite binary32 (Fp.ofHalves j)
    ∧ Fp.IsFinite binary32 (Fp.exactAdd (Fp.ofHalves j) Fp.half) := by
  constructor
  · exact reprMag_halves _ (by omega)
  · rw [Fp.half_eq]
    unfold Fp.ofHalves Fp.exactAdd
    simp only
    have hs : signed (decide (j < 0)) (j.natAbs * 2 ^ 1073) + signed false (2 ^ 1073)
        = (j + 1) * ((2 ^ 1073 : Nat) : Int) := by
      rw [signed_decide_natAbs_mul]
      show j * ((2 ^ 1073 : Nat) : Int) + ((2 ^ 1073 : Nat) : Int) = _
      ring
    rw [hs]
    have hn : ((j + 1) * ((2 ^ 1073 : Nat) : Int)).natAbs = (j + 1).natAbs * 2 ^ 1073 := by
      rw [Int.natAbs_mul, Int.natAbs_ofNat]
    show reprMag binary32 _
    rw [hn]
    exact reprMag_halves _ (by omega)

set_option exponentiation.threshold 5000 in
/-- Every integer `j` with `-2^24 ≤ j < 2^24` is a `float`, and so is `j + 1`. -/
theorem wholes_step_representable (j : Int) (h1 : -(2 ^ 24) ≤ j) (h2 : j < 2 ^ 24) :
    Fp.IsFinite binary32 (Fp.ofWhole j)
    ∧ Fp.IsFinite binary32 (Fp.exactAdd (Fp.ofWhole j) (Fp.ofInt 1)) := by
  constructor
  · exact reprMag_wholes _ (by omega)
  · rw [Fp.one_eq]
    unfold Fp.ofWhole Fp.exactAdd
    simp only
    have hs : signed (decide (j < 0)) (j.natAbs * 2 ^ 1074) + signed false (2 ^ 1074)
        = (j + 1) * ((2 ^ 1074 : Nat) : Int) := by
      rw [signed_decide_natAbs_mul]
      show j * ((2 ^ 1074 : Nat) : Int) + ((2 ^ 1074 : Nat) : Int) = _
      ring
    rw [hs]
    have hn : ((j + 1) * ((2 ^ 1074 : Nat) : Int)).natAbs = (j + 1).natAbs * 2 ^ 1074 := by
      rw [Int.natAbs_mul, Int.natAbs_ofNat]
    show reprMag binary32 _
    rw [hn]
    exact reprMag_wholes _ (by omega)

set_option exponentiation.threshold 5000 in
/-- Every multiple `j / 2` of one half with `-2^23 < j / 2 ≤ 2^23` is a `float`,
and so is its difference with 0.5. -/
theorem halves_step_down_representable (j : Int) (h1 : -(2 ^ 24) < j) (h2 : j ≤ 2 ^ 24) :
    Fp.IsFinite binary32 (Fp.ofHalves j)
    ∧ Fp.IsFinite binary32 (Fp.exactSub (Fp.ofHalves j) Fp.half) := by
  constructor
  · exact reprMag_halves _ (by omega)
  · rw [Fp.half_eq]
    unfold Fp.ofHalves Fp.exactSub Fp.neg Fp.exactAdd
    simp only
    have hs : signed (decide (j < 0)) (j.natAbs * 2 ^ 1073) + signed (!false) (2 ^ 1073)
        = (j - 1) * ((2 ^ 1073 : Nat) : Int) := by
      rw [signed_decide_natAbs_mul]
      show j * ((2 ^ 1073 : Nat) : Int) + -((2 ^ 1073 : Nat) : Int) = _
      ring
    rw [hs]
    have hn : ((j - 1) * ((2 ^ 1073 : Nat) : Int)).natAbs = (j - 1).natAbs * 2 ^ 1073 := by
      rw [Int.natAbs_mul, Int.natAbs_ofNat]
    show reprMag binary32 _
    rw [hn]
    exact reprMag_halves _ (by omega)

set_option exponentiation.threshold 5000 in
/-- Every integer `j` with `-2^24 < j ≤ 2^24` is a `float`, and so is `j - 1`. -/
theorem wholes_step_down_representable (j : Int) (h1 : -(2 ^ 24) < j) (h2 : j ≤ 2 ^ 24) :
    Fp.IsFinite binary32 (Fp.ofWhole j)
    ∧ Fp.IsFinite binary32 (Fp.exactSub (Fp.ofWhole j) (Fp.ofInt 1)) := by
  constructor
  · exact reprMag_wholes _ (by omega)
  · rw [Fp.one_eq]
    unfold Fp.ofWhole Fp.exactSub Fp.neg Fp.exactAdd
    simp only
    have hs : signed (decide (j < 0)) (j.natAbs * 2 ^ 1074) + signed (!false) (2 ^ 1074)
        = (j - 1) * ((2 ^ 1074 : Nat) : Int) := by
      rw [signed_decide_natAbs_mul]
      show j * ((2 ^ 1074 : Nat) : Int) + -((2 ^ 1074 : Nat) : Int) = _
      ring
    rw [hs]
    have hn : ((j - 1) * ((2 ^ 1074 : Nat) : Int)).natAbs = (j - 1).natAbs * 2 ^ 1074 := by
      rw [Int.natAbs_mul, Int.natAbs_ofNat]
    show reprMag binary32 _
    rw [hn]
    exact reprMag_wholes _ (by omega)

theorem addAssign_half_exact (x : Fp) (hx : Fp.IsFinite binary32 x)
    (hs : Fp.IsFinite binary32 (Fp.exactAdd x Fp.half)) :
    Fp.eq (addAssign x Fp.half) (Fp.exactAdd x Fp.half) = true := by
  rw [Fp.half_eq] at hs ⊢
  exact (addAssign_exact x _ hx hs).2

theorem subAssign_half_exact (x : Fp) (hx : Fp.IsFinite binary32 x)
    (hs : Fp.IsFinite binary32 (Fp.exactSub x Fp.half)) :
    Fp.eq (subAssign x Fp.half) (Fp.exactSub x Fp.half) = true := by
  rw [Fp.half_eq] at hs ⊢
  exact (subAssign_exact x _ hx hs).2

theorem addAssign_one_exact (x : Fp) (hx : Fp.IsFinite binary32 x)
    (hs : Fp.IsFinite binary32 (Fp.exactAdd x (Fp.ofInt 1))) :
    Fp.eq (addAssign x (Fp.ofInt 1)) (Fp.exactAdd x (Fp.ofInt 1)) = true := by
  rw [Fp.one_eq] at hs ⊢
  exact (addAssign_exact x _ hx hs).2

theorem subAssign_one_exact (x : Fp) (hx : Fp.IsFinite binary32 x)
    (hs : Fp.IsFinite binary32 (Fp.exactSub x (Fp.ofInt 1))) :
    Fp.eq (subAssign x (Fp.ofInt 1)) (Fp.exactSub x (Fp.ofInt 1)) = true := by
  rw [Fp.one_eq] at hs ⊢
  exact (subAssign_exact x _ hx hs).2

set_option maxRecDepth 100000 in
set_option exponentiation.threshold 5000 in
theorem increment_of_default_high :
    addAssign (floatOfInt 30) Fp.half = Fp.ofHalves 61
    ∧ subAssign (floatOfInt 30) Fp.half = Fp.ofHalves 59
    ∧ addAssign (floatOfInt 60) (Fp.ofInt 1) = Fp.ofWhole 61
    ∧ subAssign (floatOfInt 60) (Fp.ofInt 1) = Fp.ofWhole 59 := by
  decide

set_option exponentiation.threshold 5000 in
/-- One `+= 0.5` on a non-negative multiple `j / 2` of one half, up to `2^23`. -/
theorem addAssign_half_step (j : Nat) (hj : j + 1 ≤ 2 ^ 24) :
    addAssign (Fp.fin false (j * 2 ^ 1073)) Fp.half = Fp.fin false ((j + 1) * 2 ^ 1073) := by
  have ha : reprMag binary32 (j * 2 ^ 1073) :=
    reprMag_mul_pow binary32 j 1073 24 (by omega) (by simp [binary32]) (by simp [binary32])
  have hsum : signed false (j * 2 ^ 1073) + signed false (2 ^ 1073)
      = (((j + 1) * 2 ^ 1073 : Nat) : Int) := by
    show ((j * 2 ^ 1073 : Nat) : Int) + ((2 ^ 1073 : Nat) : Int) = _
    push_cast
    ring
  have hz : reprMag binary32 (signed false (j * 2 ^ 1073) + signed false (2 ^ 1073)).natAbs := by
    rw [hsum, Int.natAbs_ofNat]
    by_cases hlt : j + 1 < 2 ^ 24
    · exact reprMag_mul_pow binary32 (j + 1) 1073 24 hlt (by simp [binary32])
        (by simp [binary32])
    · have he : j + 1 = 2 ^ 24 := by omega
      have h2 : (j + 1) * 2 ^ 1073 = 1 * 2 ^ 1097 := by
        rw [he, ← Nat.pow_add, Nat.one_mul]
      rw [h2]
      exact reprMag_mul_pow binary32 1 1097 1 (by decide) (by simp [binary32])
        (by simp [binary32])
  rw [Fp.half_eq]
  unfold addAssign
  rw [add_then_narrow_value false false _ _ ha hz, hsum, Int.natAbs_ofNat]
  have hne : ¬ ((((j + 1) * 2 ^ 1073 : Nat) : Int) = 0) := by
    have : 0 < (j + 1) * 2 ^ 1073 := Nat.mul_pos (Nat.succ_pos j) (Nat.pow_pos (by decide))
    omega
  have hnn : ¬ ((((j + 1) * 2 ^ 1073 : Nat) : Int) < 0) := by omega
  rw [if_neg hne]
  simp only [hnn, decide_False]

set_option exponentiation.threshold 5000 in
/-- `(float)raw / 65535.0` for a 16-bit `raw`: a finite `double` within `2^-53`
of the exact quotient. -/
theorem ratio_close (r : Nat) (hr : r < 65536) :
    ∃ Q : Nat,
      Fp.div binary64 (Fp.convert binary64 (Fp.ofU16 r)) (Fp.ofInt 65535) = Fp.fin false Q
      ∧ 2 * (65535 * Q) ≤ 2 * (r * 2 ^ 1074) + 65535 * 2 ^ 1022
      ∧ 2 * (r * 2 ^ 1074) ≤ 2 * (65535 * Q) + 65535 * 2 ^ 1022 := by
  have hrep : reprMag binary32 (r * 2 ^ 1074) :=
    reprMag_mul_pow binary32 r 1074 16 (by omega) (by simp [binary32]) (by simp [binary32])
  have h0 : Fp.ofU16 r = Fp.fin false (r * 2 ^ 1074) := by
    unfold Fp.ofU16 unitsPerOne
    rw [Nat.mod_eq_of_lt hr]
    exact Fp.round_exact binary32 false _ hrep
  rw [h0, Fp.convert_exact binary64 false _ (reprMag_binary32_binary64 _ hrep),
    Fp.ofInt_constants.1]
  unfold Fp.div unitsPerOne
  simp only
  have hne : ¬ (65535 * 2 ^ 1074 = 0) := by omega
  rw [if_neg hne]
  have hc := roundMag_close binary64 (r * 2 ^ 1074 * 2 ^ 1074) (65535 * 2 ^ 1074) 1075 1022
    (by omega) (by omega) (by simp [binary64])
  have hb : roundMag binary64 (r * 2 ^ 1074 * 2 ^ 1074) (65535 * 2 ^ 1074) < 2 ^ binary64.top := by
    show _ < 2 ^ 2098
    omega
  rw [Fp.round_fin binary64 _ _ _ hb]
  refine ⟨_, rfl, ?_, ?_⟩
  · omega
  · omega

set_option exponentiation.threshold 5000 in
/-- Line 398 evaluated in `double` and narrowed to `float`: the result is finite
and within `2^-16` of `-45 + 175 * raw / 65535` (all quantities multiplied by
`65535 * 2^1074` to stay in the integers). -/
theorem convertTemperature_close (r : Nat) (hr : r < 65536) :
    ∃ (s : Bool) (T : Nat), convertTemperature r = Fp.fin s T
      ∧ 65535 * signed s T ≤ (175 * (r : Int) - 45 * 65535) * 2 ^ 1074 + 65535 * 2 ^ 1058
      ∧ (175 * (r : Int) - 45 * 65535) * 2 ^ 1074 ≤ 65535 * signed s T + 65535 * 2 ^ 1058 := by
  obtain ⟨Q, hQ, hQ1, hQ2⟩ := ratio_close r hr
  unfold convertTemperature
  rw [hQ, Fp.ofInt_constants.2.1, Fp.ofInt_constants.2.2.2]
  unfold Fp.mul unitsPerOne
  simp only [Bool.xor_false]
  have hP := roundMag_close binary64 (175 * 2 ^ 1074 * Q) (2 ^ 1074) 1083 1030
    (by omega) (by omega) (by simp [binary64])
  have hPb : roundMag binary64 (175 * 2 ^ 1074 * Q) (2 ^ 1074) < 2 ^ binary64.top := by
    show _ < 2 ^ 2098
    omega
  rw [Fp.round_fin binary64 _ _ _ hPb]
  generalize roundMag binary64 (175 * 2 ^ 1074 * Q) (2 ^ 1074) = P at hP hPb
  unfold Fp.add
  simp only
  by_cases hz : signed true (45 * 2 ^ 1074) + signed false P = 0
  · rw [if_pos hz, Fp.convert_exact binary32 _ 0 (reprMag_zero _)]
    have hz2 : (P : Int) = 45 * 2 ^ 1074 := by
      have : signed true (45 * 2 ^ 1074) + signed false P = -((45 * 2 ^ 1074 : Nat) : Int) + P :=
        rfl
      rw [this] at hz
      push_cast at hz
      omega
    refine ⟨_, 0, rfl, ?_, ?_⟩
    · have : signed (true && false) 0 = 0 := rfl
      rw [this]
      omega
    · have : signed (true && false) 0 = 0 := rfl
      rw [this]
      omega
  · rw [if_neg hz]
    have hzv : signed true (45 * 2 ^ 1074) + signed false P = (P : Int) - 45 * 2 ^ 1074 := by
      have : signed true (45 * 2 ^ 1074) + signed false P = -((45 * 2 ^ 1074 : Nat) : Int) + P :=
        rfl
      rw [this]
      push_cast
      omega
    rw [hzv] at hz ⊢
    generalize hzdef : (P : Int) - 45 * 2 ^ 1074 = z at hz
    have hS := roundMag_close binary64 z.natAbs 1 1082 1029 (by decide) (by omega)
      (by simp [binary64])
    have hSb : roundMag binary64 z.natAbs 1 < 2 ^ 2098 := by omega
    rw [Fp.round_fin binary64 _ _ _ hSb]
    generalize roundMag binary64 z.natAbs 1 = S at hS hSb
    unfold Fp.convert
    simp only
    have hT := roundMag_close binary32 S 1 1082 1058 (by decide) (by omega) (by simp [binary32])
    have hTb : roundMag binary32 S 1 < 2 ^ 1202 := by omega
    rw [Fp.round_fin binary32 _ _ _ hTb]
    generalize roundMag binary32 S 1 = T at hT hTb
    by_cases hneg : z < 0
    · have hs : signed (decide (z < 0)) T = -(T : Int) := by simp [signed, hneg]
      refine ⟨_, _, rfl, ?_, ?_⟩
      · rw [hs]; omega
      · rw [hs]; omega
    · have hs : signed (decide (z < 0)) T = (T : Int) := by simp [signed, hneg]
      refine ⟨_, _, rfl, ?_, ?_⟩
      · rw [hs]; omega
      · rw [hs]; omega

set_option exponentiation.threshold 5000 in
/-- Line 399 evaluated in `double` and narrowed to `float`: the result is finite,
non-negative and within `2^-17` of `100 * raw / 65535`. -/
theorem convertHumidity_close (r : Nat) (hr : r < 65536) :
    ∃ T : Nat, convertHumidity r = Fp.fin false T
      ∧ 65535 * (T : Int) ≤ 100 * (r : Int) * 2 ^ 1074 + 65535 * 2 ^ 1057
      ∧ 100 * (r : Int) * 2 ^ 1074 ≤ 65535 * (T : Int) + 65535 * 2 ^ 1057 := by
  obtain ⟨Q, hQ, hQ1, hQ2⟩ := ratio_close r hr
  unfold convertHumidity
  rw [hQ, Fp.ofInt_constants.2.2.1]
  unfold Fp.mul unitsPerOne
  simp only [Bool.xor_false]
  have hP := roundMag_close binary64 (100 * 2 ^ 1074 * Q) (2 ^ 1074) 1081 1028
    (by omega) (by omega) (by simp [binary64])
  have hPb : roundMag binary64 (100 * 2 ^ 1074 * Q) (2 ^ 1074) < 2 ^ 2098 := by omega
  rw [Fp.round_fin binary64 _ _ _ hPb]
  generalize roundMag binary64 (100 * 2 ^ 1074 * Q) (2 ^ 1074) = P at hP hPb
  unfold Fp.convert
  simp only
  have hT := roundMag_close binary32 P 1 1081 1057 (by decide) (by omega) (by simp [binary32])
  have hTb : roundMag binary32 P 1 < 2 ^ 1202 := by omega
  rw [Fp.round_fin binary32 _ _ _ hTb]
  generalize roundMag binary32 P 1 = T at hT hTb
  exact ⟨T, rfl, by omega, by omega⟩

theorem Fp.toRat_fin (s : Bool) (a : Nat) :
    Fp.toRat (Fp.fin s a) = (signed s a : ℚ) / 2 ^ 1074 := rfl

set_option exponentiation.threshold 5000 in
theorem convertTemperature_toRat (r : Nat) (hr : r < 65536) :
    |Fp.toRat (convertTemperature r) - specTemperatureC r| ≤ 1 / 2 ^ 16 := by
  obtain ⟨s, T, hT, h1, h2⟩ := convertTemperature_close r hr
  rw [hT, Fp.toRat_fin]
  unfold specTemperatureC
  have q1 : (65535 : ℚ) * (signed s T : ℚ)
      ≤ (175 * (r : ℚ) - 45 * 65535) * 2 ^ 1074 + 65535 * 2 ^ 1058 := by exact_mod_cast h1
  have q2 : (175 * (r : ℚ) - 45 * 65535) * 2 ^ 1074
      ≤ 65535 * (signed s T : ℚ) + 65535 * 2 ^ 1058 := by exact_mod_cast h2
  rw [abs_le]
  constructor
  · linarith
  · linarith

set_option exponentiation.threshold 5000 in
theorem convertHumidity_toRat (r : Nat) (hr : r < 65536) :
    |Fp.toRat (convertHumidity r) - specHumidityPct r| ≤ 1 / 2 ^ 17 := by
  obtain ⟨T, hT, h1, h2⟩ := convertHumidity_close r hr
  have hs : signed false T = (T : Int) := rfl
  rw [hT, Fp.toRat_fin, hs]
  unfold specHumidityPct
  have q1 : (65535 : ℚ) * ((T : Int) : ℚ)
      ≤ 100 * (r : ℚ) * 2 ^ 1074 + 65535 * 2 ^ 1057 := by exact_mod_cast h1
  have q2 : 100 * (r : ℚ) * 2 ^ 1074
      ≤ 65535 * ((T : Int) : ℚ) + 65535 * 2 ^ 1057 := by exact_mod_cast h2
  rw [abs_le]
  constructor
  · linarith
  · linarith

set_option maxRecDepth 100000 in
set_option exponentiation.threshold 5000 in
theorem conversion_endpoints :
    convertTemperature 0 = Fp.fin true (45 * 2 ^ 1074)
    ∧ convertHumidity 0 = Fp.fin false 0
    ∧ convertTemperature 65535 = Fp.fin false (130 * 2 ^ 1074)
    ∧ convertHumidity 65535 = Fp.fin false (100 * 2 ^ 1074) := by
  decide

/-! ## Facts about the device operations -/

theorem update_display_config (d : Device) : (update_display d).config = d.config := rfl

theorem publishCount_append (l m : List Event) :
    publishCount (l ++ m) = publishCount l + publishCount m := by
  induction l with
  | nil => simp [publishCount]
  | cons a l ih =>
    cases a with
    | publish t h => simp [publishCount, ih]; omega
    | _ => simp [publishCount, ih]

theorem update_display_trace (d : Device) :
    publishCount (update_display d).trace = publishCount d.trace := by
  have h : ∀ (l : List Event) (e : Event), (∀ t h, e ≠ Event.publish t h) →
      publishCount (l ++ [e]) = publishCount l := by
    intro l e he
    induction l with
    | nil => cases e <;> simp_all [publishCount]
    | cons a l ih => cases a <;> simp_all [publishCount]
  unfold update_display
  exact h _ _ (by intro t h; simp)

theorem update_display_trace_eq (d : Device) :
    ∃ e : Event, (update_display d).trace = d.trace ++ [e] ∧ publishCount [e] = 0 := by
  unfold update_display
  exact ⟨_, rfl, rfl⟩

/-- `handle_buttons` either does nothing or ends with one redraw of a device
that has the same trace and the same raw values. -/
theorem handle_buttons_cases (p : Pins) (d : Device) :
    handle_buttons p d = d ∨
    ∃ e : Device, handle_buttons p d = update_display e ∧ e.trace = d.trace
      ∧ e.temperature = d.temperature ∧ e.humidity = d.humidity := by
  unfold handle_buttons
  split_ifs
  all_goals first
    | exact Or.inl rfl
    | (refine Or.inr ⟨_, rfl, ?_⟩
       first
         | exact ⟨rfl, rfl, rfl⟩
         | (split <;> exact ⟨rfl, rfl, rfl⟩))

theorem handle_buttons_publishCount (p : Pins) (d : Device) :
    publishCount (handle_buttons p d).trace = publishCount d.trace := by
  rcases handle_buttons_cases p d with h | ⟨e, h, ht, _, _⟩
  · rw [h]
  · rw [h, update_display_trace, ht]

theorem handle_buttons_raw (p : Pins) (d : Device) :
    (handle_buttons p d).temperature = d.temperature
    ∧ (handle_buttons p d).humidity = d.humidity := by
  rcases handle_buttons_cases p d with h | ⟨e, h, _, ht, hh⟩
  · rw [h]; exact ⟨rfl, rfl⟩
  · rw [h]; exact ⟨ht, hh⟩

/-- Pin levels with no active input never change the device. -/
theorem handle_buttons_idle (p : Pins) (d : Device) (hm : p.mode = false) (ho : p.ok = false)
    (hu : p.up = false) (hd : p.down = false) : handle_buttons p d = d := by
  unfold handle_buttons
  simp [hm, ho, hu, hd]

theorem Next_screen (d : Device) : (Next d).current_screen = d.current_screen.succ := by
  cases d with
  | mk cs th tl hh hl t h tr =>
    cases cs <;>
      simp [Next, handle_buttons, update_display, Pins.idle, screen_t.value, screen_t.ofValue,
        screen_t.succ]

theorem Next_thresholds (d : Device) : (Next d).thresholds = d.thresholds := rfl

/-- A successful read on the Main screen: the raw values are stored and the
converted reading is shown and evaluated. -/
theorem sensor_part_ok (b : Bus) (d : Device) (hm : d.current_screen = MAIN_SCREEN)
    (hw : b.write_ret = ESP_OK) (hr : b.read_ret = ESP_OK) :
    sensor_part b d =
      show_and_alert (convertTemperature b.rawTemperature) (convertHumidity b.rawHumidity)
        { d with temperature := b.rawTemperature, humidity := b.rawHumidity } := by
  unfold sensor_part shtc1_read
  rw [if_pos hm]
  simp only [hw, hr, ne_eq, not_true_eq_false, if_false, if_true]

theorem show_and_alert_config (temp hum : Fp) (d : Device) :
    (show_and_alert temp hum d).config = d.config := by
  unfold show_and_alert
  by_cases hw : warning temp hum
      { d with trace := d.trace ++
        [Event.reading temp hum (tempOutOfRange temp d) (humOutOfRange hum d)] } = true
  · simp only [hw, if_true]; rfl
  · simp only [hw]; rfl

theorem show_and_alert_trace (temp hum : Fp) (d : Device) :
    (show_and_alert temp hum d).trace =
      d.trace ++ (Event.reading temp hum (tempOutOfRange temp d) (humOutOfRange hum d) ::
        ((if warning temp hum d then [Event.publish temp hum] else []) ++ [Event.refresh])) := by
  unfold show_and_alert
  have hw : warning temp hum
      { d with trace := d.trace ++
        [Event.reading temp hum (tempOutOfRange temp d) (humOutOfRange hum d)] }
      = warning temp hum d := rfl
  simp only [hw]
  by_cases h : warning temp hum d = true
  · simp [h]
  · simp [h]

theorem Increment_temp_low (th tl hh hl : Fp) (t h : Nat) (tr : List Event) :
    (Increment ⟨SET_TEMP_THRESHOLD_LOW, th, tl, hh, hl, t, h, tr⟩).config
      = (SET_TEMP_THRESHOLD_LOW, th, addAssign tl Fp.half, hh, hl) := rfl

theorem Increment_temp_high_of_config (d : Device) (x tl hh hl : Fp)
    (h : d.config = (SET_TEMP_THRESHOLD_HIGH, x, tl, hh, hl)) :
    (Increment d).config = (SET_TEMP_THRESHOLD_HIGH, addAssign x Fp.half, tl, hh, hl) := by
  cases d with
  | mk cs th a b c t u tr =>
    simp only [Device.config, Prod.mk.injEq] at h
    obtain ⟨h1, h2, h3, h4, h5⟩ := h
    subst h1 h2 h3 h4 h5
    rfl

set_option exponentiation.threshold 5000 in
/-- Keeping Up pressed on the Edit screen of the upper temperature bound raises
it from 30.0 by one half per press as long as `2^23` is not exceeded. -/
theorem temp_high_climbs (n : Nat) (hn : 60 + n ≤ 2 ^ 24) (d : Device) (tl hh hl : Fp)
    (h : d.config = (SET_TEMP_THRESHOLD_HIGH, Fp.fin false (60 * 2 ^ 1073), tl, hh, hl)) :
    (Increment^[n] d).config
      = (SET_TEMP_THRESHOLD_HIGH, Fp.fin false ((60 + n) * 2 ^ 1073), tl, hh, hl) := by
  induction n with
  | zero => simpa using h
  | succ n ih =>
    rw [Function.iterate_succ_apply', Increment_temp_high_of_config _ _ _ _ _ (ih (by omega)),
      addAssign_half_step (60 + n) (by omega)]
    rfl

set_option maxRecDepth 100000 in
set_option exponentiation.threshold 5000 in
/-- The state of the C5 counterexample is reached from power-up by pressing
Mode twice and then Up 16777156 times. -/
theorem tempHighAt2p23_reachable :
    (Increment^[16777156] (Next (Next Device.init))).config = Device.tempHighAt2p23.config := by
  have h0 : (Next (Next Device.init)).config
      = (SET_TEMP_THRESHOLD_HIGH, Fp.fin false (60 * 2 ^ 1073), floatOfInt 20, floatOfInt 60,
          floatOfInt 30) := by decide
  have h1 : Device.tempHighAt2p23.config
      = (SET_TEMP_THRESHOLD_HIGH, Fp.fin false ((60 + 16777156) * 2 ^ 1073), floatOfInt 20,
          floatOfInt 60, floatOfInt 30) := by decide
  rw [h1]
  exact temp_high_climbs 16777156 (by decide) _ _ _ _ h0

/-! ## The properties of the design document -/

/-- C1. `Next` (a debounced Mode press in `handle_buttons`) moves each screen
state to its successor in enumeration order Main, Menu, EditTempHigh,
EditTempLow, EditHumHigh, EditHumLow, wrapping from EditHumLow to Main; from
any starting state the states before the first and after each of the first five
`Next` are six pairwise distinct states and the sixth `Next` is back at the
start (from Main, none of the first five is Main); the four thresholds are
never changed. -/
theorem C1_next_cycles_through_six_screens (d : Device) :
    (Next d).current_screen = d.current_screen.succ
    ∧ screen_t.succ MAIN_SCREEN = MENU_SCREEN
    ∧ screen_t.succ MENU_SCREEN = SET_TEMP_THRESHOLD_HIGH
    ∧ screen_t.succ SET_TEMP_THRESHOLD_HIGH = SET_TEMP_THRESHOLD_LOW
    ∧ screen_t.succ SET_TEMP_THRESHOLD_LOW = SET_HUM_THRESHOLD_HIGH
    ∧ screen_t.succ SET_HUM_THRESHOLD_HIGH = SET_HUM_THRESHOLD_LOW
    ∧ screen_t.succ SET_HUM_THRESHOLD_LOW = MAIN_SCREEN
    ∧ [d.current_screen, (Next d).current_screen, (Next^[2] d).current_screen,
        (Next^[3] d).current_screen, (Next^[4] d).current_screen,
        (Next^[5] d).current_screen].Nodup
    ∧ (Next^[6] d).current_screen = d.current_screen
    ∧ (d.current_screen = MAIN_SCREEN →
        ∀ k : Nat, 0 < k → k < 6 → (Next^[k] d).current_screen ≠ MAIN_SCREEN)
    ∧ (∀ k : Nat, (Next^[k] d).thresholds = d.thresholds) := by
  have hit : ∀ (k : Nat) (e : Device),
      (Next^[k] e).current_screen = screen_t.succ^[k] e.current_screen := by
    intro k
    induction k with
    | zero => intro e; rfl
    | succ k ih =>
      intro e
      rw [Function.iterate_succ_apply, Function.iterate_succ_apply, ih, Next_screen]
  have hth : ∀ (k : Nat) (e : Device), (Next^[k] e).thresholds = e.thresholds := by
    intro k
    induction k with
    | zero => intro e; rfl
    | succ k ih =>
      intro e
      rw [Function.iterate_succ_apply, ih, Next_thresholds]
  refine ⟨Next_screen d, rfl, rfl, rfl, rfl, rfl, rfl, ?_, ?_, ?_, fun k => hth k d⟩
  · have h1 : (Next d).current_screen = (Next^[1] d).current_screen := rfl
    rw [h1, hit 1, hit 2, hit 3, hit 4, hit 5]
    cases d.current_screen <;> decide
  · rw [hit 6]
    cases d.current_screen <;> rfl
  · intro hm k hk0 hk6
    rw [hit k, hm]
    have : k = 1 ∨ k = 2 ∨ k = 3 ∨ k = 4 ∨ k = 5 := by omega
    rcases this with h | h | h | h | h <;> subst h <;> decide

/-- C2. `Confirm` (a debounced Ok press in `handle_buttons`) applied to any of
the five non-Main screen states yields Main, applied to Main it changes nothing
at all; in both cases the four thresholds are unchanged. -/
theorem C2_confirm_returns_to_main (d : Device) :
    (d.current_screen ≠ MAIN_SCREEN → (Confirm d).current_screen = MAIN_SCREEN)
    ∧ (d.current_screen = MAIN_SCREEN → Confirm d = d)
    ∧ (Confirm d).current_screen = MAIN_SCREEN
    ∧ (Confirm d).thresholds = d.thresholds := by
  cases d with
  | mk cs th tl hh hl t h tr =>
    cases cs <;>
      simp [Confirm, handle_buttons, update_display, Pins.idle, Device.thresholds]

set_option maxRecDepth 100000 in
set_option exponentiation.threshold 5000 in
/-- C3. For every reading and every threshold configuration the alert
evaluation of the main loop raises `warning`, and then makes exactly one publish
call, if and only if `temp > temp_threshold_high` or `temp < temp_threshold_low`
or `hum > hum_threshold_high` or `hum < hum_threshold_low`; the comparisons are
strict, so a reading equal to all its bounds is no breach; with the default
thresholds 30/20 and 60/30 the reading (31.0, 45.0) alerts and (25.0, 45.0)
does not. -/
theorem C3_alert_iff_strict_breach (temp hum : Fp) (d : Device) :
    (warning temp hum d = true ↔
      (Fp.gt temp d.temp_threshold_high = true ∨ Fp.lt temp d.temp_threshold_low = true
        ∨ Fp.gt hum d.hum_threshold_high = true ∨ Fp.lt hum d.hum_threshold_low = true))
    ∧ publishCount (show_and_alert temp hum d).trace
        = publishCount d.trace + (if warning temp hum d then 1 else 0)
    ∧ (show_and_alert temp hum d).trace =
        d.trace ++ (Event.reading temp hum (tempOutOfRange temp d) (humOutOfRange hum d) ::
          ((if warning temp hum d then [Event.publish temp hum] else []) ++ [Event.refresh]))
    ∧ (∀ b : Bus, d.current_screen = MAIN_SCREEN → b.write_ret = ESP_OK → b.read_ret = ESP_OK →
        sensor_part b d =
          show_and_alert (convertTemperature b.rawTemperature) (convertHumidity b.rawHumidity)
            { d with temperature := b.rawTemperature, humidity := b.rawHumidity })
    ∧ warning temp hum
        { d with temp_threshold_high := temp, temp_threshold_low := temp,
                 hum_threshold_high := hum, hum_threshold_low := hum } = false
    ∧ warning (floatOfInt 31) (floatOfInt 45) Device.init = true
    ∧ Fp.gt (floatOfInt 31) Device.init.temp_threshold_high = true
    ∧ humOutOfRange (floatOfInt 45) Device.init = false
    ∧ warning (floatOfInt 25) (floatOfInt 45) Device.init = false := by
  refine ⟨?_, ?_, show_and_alert_trace temp hum d, ?_, ?_, by decide, by decide, by decide,
    by decide⟩
  · unfold warning tempOutOfRange humOutOfRange
    cases Fp.gt temp d.temp_threshold_high <;> cases Fp.lt temp d.temp_threshold_low <;>
      cases Fp.gt hum d.hum_threshold_high <;> cases Fp.lt hum d.hum_threshold_low <;> simp
  · rw [show_and_alert_trace, publishCount_append]
    cases warning temp hum d <;> simp [publishCount]
  · intro b hm hw hr
    exact sensor_part_ok b d hm hw hr
  · unfold warning tempOutOfRange humOutOfRange Fp.gt
    simp [Fp.lt_irrefl]

set_option maxRecDepth 100000 in
set_option exponentiation.threshold 5000 in
/-- C4, counterexample to "adds the step for every threshold configuration":
with `temp_threshold_high` = 8388608.0 (a `float`) on its Edit screen,
`Increment` leaves every threshold as it was, because 8388608.5 is not a `float`
and rounds back to 8388608.0; likewise `hum_threshold_high` = 16777216.0 is not
changed by `Increment` (step 1.0). -/
theorem C4_increment_stalls_counterexample :
    Fp.IsFinite binary32 Device.tempHighAt2p23.temp_threshold_high
    ∧ (Increment Device.tempHighAt2p23).config = Device.tempHighAt2p23.config
    ∧ Fp.exactAdd Device.tempHighAt2p23.temp_threshold_high Fp.half
        = Fp.fin false (16777217 * 2 ^ 1073)
    ∧ Fp.eq (Increment Device.tempHighAt2p23).temp_threshold_high
        (Fp.exactAdd Device.tempHighAt2p23.temp_threshold_high Fp.half) = false
    ∧ Fp.IsFinite binary32 Device.humHighAt2p24.hum_threshold_high
    ∧ (Increment Device.humHighAt2p24).config = Device.humHighAt2p24.config
    ∧ Fp.eq (Increment Device.humHighAt2p24).hum_threshold_high
        (Fp.exactAdd Device.humHighAt2p24.hum_threshold_high (Fp.ofInt 1)) = false := by
  decide

/-- C4, for representable results. For every threshold configuration,
`Increment` (resp. `Decrement`) on an Edit screen leaves the other three
thresholds and the screen state unchanged and replaces the one threshold that
screen edits by the result of the C operation `+= step` (resp. `-= step`) on a
`float`, with step 0.5 for the two temperature bounds and 1.0 for the two
humidity bounds.  Whenever the edited value is a finite `float` and its exact
sum (resp. difference) with the step is a `float` too, the new value equals
that exact sum (resp. difference); this is the case for every multiple of 0.5
from -8388608 to 8388607.5 (resp. from -8388607.5 to 8388608) and, with step
1.0, for every integer from -16777216 to 16777215 (resp. from -16777215 to
16777216), e.g. 30.0 becomes 30.5 or 29.5 and 60.0 becomes 61.0 or 59.0.  No
other bound is consulted: raising `temp_threshold_low` from 30.0 takes it above
a `temp_threshold_high` of 30.0. -/
theorem C4_adjust_edits_one_threshold (th tl hh hl : Fp) (t h : Nat) (tr : List Event) :
    (Increment ⟨SET_TEMP_THRESHOLD_HIGH, th, tl, hh, hl, t, h, tr⟩).config
        = (SET_TEMP_THRESHOLD_HIGH, addAssign th Fp.half, tl, hh, hl)
    ∧ (Increment ⟨SET_TEMP_THRESHOLD_LOW, th, tl, hh, hl, t, h, tr⟩).config
        = (SET_TEMP_THRESHOLD_LOW, th, addAssign tl Fp.half, hh, hl)
    ∧ (Increment ⟨SET_HUM_THRESHOLD_HIGH, th, tl, hh, hl, t, h, tr⟩).config
        = (SET_HUM_THRESHOLD_HIGH, th, tl, addAssign hh (Fp.ofInt 1), hl)
    ∧ (Increment ⟨SET_HUM_THRESHOLD_LOW, th, tl, hh, hl, t, h, tr⟩).config
        = (SET_HUM_THRESHOLD_LOW, th, tl, hh, addAssign hl (Fp.ofInt 1))
    ∧ (Decrement ⟨SET_TEMP_THRESHOLD_HIGH, th, tl, hh, hl, t, h, tr⟩).config
        = (SET_TEMP_THRESHOLD_HIGH, subAssign th Fp.half, tl, hh, hl)
    ∧ (Decrement ⟨SET_TEMP_THRESHOLD_LOW, th, tl, hh, hl, t, h, tr⟩).config
        = (SET_TEMP_THRESHOLD_LOW, th, subAssign tl Fp.half, hh, hl)
    ∧ (Decrement ⟨SET_HUM_THRESHOLD_HIGH, th, tl, hh, hl, t, h, tr⟩).config
        = (SET_HUM_THRESHOLD_HIGH, th, tl, subAssign hh (Fp.ofInt 1), hl)
    ∧ (Decrement ⟨SET_HUM_THRESHOLD_LOW, th, tl, hh, hl, t, h, tr⟩).config
        = (SET_HUM_THRESHOLD_LOW, th, tl, hh, subAssign hl (Fp.ofInt 1))
    ∧ (Fp.IsFinite binary32 th → Fp.IsFinite binary32 (Fp.exactAdd th Fp.half) →
        Fp.eq (Increment ⟨SET_TEMP_THRESHOLD_HIGH, th, tl, hh, hl, t, h, tr⟩).temp_threshold_high
          (Fp.exactAdd th Fp.half) = true)
    ∧ (Fp.IsFinite binary32 tl → Fp.IsFinite binary32 (Fp.exactAdd tl Fp.half) →
        Fp.eq (Increment ⟨SET_TEMP_THRESHOLD_LOW, th, tl, hh, hl, t, h, tr⟩).temp_threshold_low
          (Fp.exactAdd tl Fp.half) = true)
    ∧ (Fp.IsFinite binary32 hh → Fp.IsFinite binary32 (Fp.exactAdd hh (Fp.ofInt 1)) →
        Fp.eq (Increment ⟨SET_HUM_THRESHOLD_HIGH, th, tl, hh, hl, t, h, tr⟩).hum_threshold_high
          (Fp.exactAdd hh (Fp.ofInt 1)) = true)
    ∧ (Fp.IsFinite binary32 hl → Fp.IsFinite binary32 (Fp.exactAdd hl (Fp.ofInt 1)) →
        Fp.eq (Increment ⟨SET_HUM_THRESHOLD_LOW, th, tl, hh, hl, t, h, tr⟩).hum_threshold_low
          (Fp.exactAdd hl (Fp.ofInt 1)) = true)
    ∧ (Fp.IsFinite binary32 th → Fp.IsFinite binary32 (Fp.exactSub th Fp.half) →
        Fp.eq (Decrement ⟨SET_TEMP_THRESHOLD_HIGH, th, tl, hh, hl, t, h, tr⟩).temp_threshold_high
          (Fp.exactSub th Fp.half) = true)
    ∧ (Fp.IsFinite binary32 tl → Fp.IsFinite binary32 (Fp.exactSub tl Fp.half) →
        Fp.eq (Decrement ⟨SET_TEMP_THRESHOLD_LOW, th, tl, hh, hl, t, h, tr⟩).temp_threshold_low
          (Fp.exactSub tl Fp.half) = true)
    ∧ (Fp.IsFinite binary32 hh → Fp.IsFinite binary32 (Fp.exactSub hh (Fp.ofInt 1)) →
        Fp.eq (Decrement ⟨SET_HUM_THRESHOLD_HIGH, th, tl, hh, hl, t, h, tr⟩).hum_threshold_high
          (Fp.exactSub hh (Fp.ofInt 1)) = true)
    ∧ (Fp.IsFinite binary32 hl → Fp.IsFinite binary32 (Fp.exactSub hl (Fp.ofInt 1)) →
        Fp.eq (Decrement ⟨SET_HUM_THRESHOLD_LOW, th, tl, hh, hl, t, h, tr⟩).hum_threshold_low
          (Fp.exactSub hl (Fp.ofInt 1)) = true)
    ∧ (∀ j : Int, -(2 ^ 24) ≤ j → j < 2 ^ 24 →
        Fp.IsFinite binary32 (Fp.ofHalves j)
        ∧ Fp.IsFinite binary32 (Fp.exactAdd (Fp.ofHalves j) Fp.half))
    ∧ (∀ j : Int, -(2 ^ 24) < j → j ≤ 2 ^ 24 →
        Fp.IsFinite binary32 (Fp.ofHalves j)
        ∧ Fp.IsFinite binary32 (Fp.exactSub (Fp.ofHalves j) Fp.half))
    ∧ (∀ j : Int, -(2 ^ 24) ≤ j → j < 2 ^ 24 →
        Fp.IsFinite binary32 (Fp.ofWhole j)
        ∧ Fp.IsFinite binary32 (Fp.exactAdd (Fp.ofWhole j) (Fp.ofInt 1)))
    ∧ (∀ j : Int, -(2 ^ 24) < j → j ≤ 2 ^ 24 →
        Fp.IsFinite binary32 (Fp.ofWhole j)
        ∧ Fp.IsFinite binary32 (Fp.exactSub (Fp.ofWhole j) (Fp.ofInt 1)))
    ∧ addAssign (floatOfInt 30) Fp.half = Fp.ofHalves 61
    ∧ subAssign (floatOfInt 30) Fp.half = Fp.ofHalves 59
    ∧ addAssign (floatOfInt 60) (Fp.ofInt 1) = Fp.ofWhole 61
    ∧ subAssign (floatOfInt 60) (Fp.ofInt 1) = Fp.ofWhole 59
    ∧ Fp.gt
        (Increment ⟨SET_TEMP_THRESHOLD_LOW, floatOfInt 30, floatOfInt 30, hh, hl, t, h,
          tr⟩).temp_threshold_low
        (Increment ⟨SET_TEMP_THRESHOLD_LOW, floatOfInt 30, floatOfInt 30, hh, hl, t, h,
          tr⟩).temp_threshold_high = true := by
  refine ⟨rfl, rfl, rfl, rfl, rfl, rfl, rfl, rfl, addAssign_half_exact th, addAssign_half_exact tl,
    addAssign_one_exact hh, addAssign_one_exact hl, subAssign_half_exact th,
    subAssign_half_exact tl, subAssign_one_exact hh, subAssign_one_exact hl,
    ?_, ?_, ?_, ?_, ?_, ?_, ?_, ?_, ?_⟩
  · exact halves_step_representable
  · exact halves_step_down_representable
  · exact wholes_step_representable
  · exact wholes_step_down_representable
  · exact increment_of_default_high.1
  · exact increment_of_default_high.2.1
  · exact increment_of_default_high.2.2.1
  · exact increment_of_default_high.2.2.2
  · have e := Increment_temp_low (floatOfInt 30) (floatOfInt 30) hh hl t h tr
    have e1 := congrArg (fun c => c.2.2.1) e
    have e2 := congrArg (fun c => c.2.1) e
    simp only [Device.config] at e1 e2
    rw [e1, e2]
    exact low_bound_crosses_high

set_option maxRecDepth 100000 in
set_option exponentiation.threshold 5000 in
/-- C5, counterexample to the round trip for an arbitrary starting value: with
`temp_threshold_high` = 8388608.0 (a `float`) on its Edit screen, `Increment`
leaves the value at 8388608.0 because 8388608.5 is not a `float` and rounds to
even, and the following `Decrement` yields 8388607.5, which differs from the
starting value. -/
theorem C5_round_trip_counterexample :
    Fp.IsFinite binary32 Device.tempHighAt2p23.temp_threshold_high
    ∧ (Increment Device.tempHighAt2p23).temp_threshold_high = floatOfInt 8388608
    ∧ (Decrement (Increment Device.tempHighAt2p23)).temp_threshold_high
        = Fp.fin false (16777215 * 2 ^ 1073)
    ∧ Fp.eq (Decrement (Increment Device.tempHighAt2p23)).temp_threshold_high
        Device.tempHighAt2p23.temp_threshold_high = false
    ∧ (Decrement (Increment Device.tempHighAt2p23)).temp_threshold_high
        ≠ Device.tempHighAt2p23.temp_threshold_high := by
  decide

/-- C5, for representable sums. For every Edit screen and every starting value
`v` of the threshold it edits such that `v` is a finite `float` and `v + step`
is one too (`step` = 0.5 for the temperature bounds, 1.0 for the humidity
bounds), `Increment` followed by `Decrement` returns the edited threshold to a
value equal to `v` and leaves the other three thresholds and the screen state
as they were.  The condition holds for every multiple of 0.5 from -8388608 to
8388607.5 and, with step 1.0, for every integer from -16777216 to 16777215. -/
theorem C5_round_trip_when_sum_is_representable (v a b c : Fp) (t h : Nat)
    (tr : List Event) (hv : Fp.IsFinite binary32 v) :
    (Fp.IsFinite binary32 (Fp.exactAdd v Fp.half) →
      (∃ w, (Decrement (Increment ⟨SET_TEMP_THRESHOLD_HIGH, v, a, b, c, t, h, tr⟩)).config
            = (SET_TEMP_THRESHOLD_HIGH, w, a, b, c) ∧ Fp.eq w v = true)
      ∧ (∃ w, (Decrement (Increment ⟨SET_TEMP_THRESHOLD_LOW, a, v, b, c, t, h, tr⟩)).config
            = (SET_TEMP_THRESHOLD_LOW, a, w, b, c) ∧ Fp.eq w v = true))
    ∧ (Fp.IsFinite binary32 (Fp.exactAdd v (Fp.ofInt 1)) →
      (∃ w, (Decrement (Increment ⟨SET_HUM_THRESHOLD_HIGH, a, b, v, c, t, h, tr⟩)).config
            = (SET_HUM_THRESHOLD_HIGH, a, b, w, c) ∧ Fp.eq w v = true)
      ∧ (∃ w, (Decrement (Increment ⟨SET_HUM_THRESHOLD_LOW, a, b, c, v, t, h, tr⟩)).config
            = (SET_HUM_THRESHOLD_LOW, a, b, c, w) ∧ Fp.eq w v = true))
    ∧ (∀ j : Int, -(2 ^ 24) ≤ j → j < 2 ^ 24 →
        Fp.IsFinite binary32 (Fp.ofHalves j)
        ∧ Fp.IsFinite binary32 (Fp.exactAdd (Fp.ofHalves j) Fp.half))
    ∧ (∀ j : Int, -(2 ^ 24) ≤ j → j < 2 ^ 24 →
        Fp.IsFinite binary32 (Fp.ofWhole j)
        ∧ Fp.IsFinite binary32 (Fp.exactAdd (Fp.ofWhole j) (Fp.ofInt 1))) := by
  refine ⟨?_, ?_, halves_step_representable, wholes_step_representable⟩
  · intro hs
    rw [Fp.half_eq] at hs
    have key := add_sub_roundtrip v _ hv hs
    rw [← Fp.half_eq] at key
    exact ⟨⟨_, rfl, key⟩, ⟨_, rfl, key⟩⟩
  · intro hs
    rw [Fp.one_eq] at hs
    have key := add_sub_roundtrip v _ hv hs
    rw [← Fp.one_eq] at key
    exact ⟨⟨_, rfl, key⟩, ⟨_, rfl, key⟩⟩

set_option maxRecDepth 100000 in
set_option exponentiation.threshold 5000 in
/-- Witness of C5 for representable sums: the default upper temperature bound
30.0, whose sum with 0.5 is the `float` 30.5. -/
theorem C5_round_trip_when_sum_is_representable_witness :
    Fp.IsFinite binary32 (floatOfInt 30)
    ∧ Fp.IsFinite binary32 (Fp.exactAdd (floatOfInt 30) Fp.half)
    ∧ ∃ w, (Decrement (Increment ⟨SET_TEMP_THRESHOLD_HIGH, floatOfInt 30, floatOfInt 20,
          floatOfInt 60, floatOfInt 30, 0, 0, []⟩)).config
        = (SET_TEMP_THRESHOLD_HIGH, w, floatOfInt 20, floatOfInt 60, floatOfInt 30)
        ∧ Fp.eq w (floatOfInt 30) = true :=
  ⟨by decide, by decide,
    ((C5_round_trip_when_sum_is_representable (floatOfInt 30) (floatOfInt 20) (floatOfInt 60)
      (floatOfInt 30) 0 0 [] (by decide)).1 (by decide)).1⟩

/-- C6. While the screen state is Main or Menu, `Increment` and `Decrement`
leave the four thresholds and the screen state unchanged, so any number of
applications gives the same configuration as one application or none. -/
theorem C6_adjust_is_noop_outside_edit (d : Device)
    (h : d.current_screen = MAIN_SCREEN ∨ d.current_screen = MENU_SCREEN) :
    (Increment d).config = d.config
    ∧ (Decrement d).config = d.config
    ∧ (∀ n : Nat, (Increment^[n] d).config = d.config)
    ∧ (∀ n : Nat, (Decrement^[n] d).config = d.config) := by
  have hi : ∀ e : Device,
      (e.current_screen = MAIN_SCREEN ∨ e.current_screen = MENU_SCREEN) →
      (Increment e).config = e.config := by
    intro e he
    cases e with
    | mk cs th tl hh hl t h tr =>
      rcases he with he | he <;> simp only at he <;> subst he <;> rfl
  have hd : ∀ e : Device,
      (e.current_screen = MAIN_SCREEN ∨ e.current_screen = MENU_SCREEN) →
      (Decrement e).config = e.config := by
    intro e he
    cases e with
    | mk cs th tl hh hl t h tr =>
      rcases he with he | he <;> simp only at he <;> subst he <;> rfl
  have hscreen : ∀ e e2 : Device, e2.config = e.config →
      (e.current_screen = MAIN_SCREEN ∨ e.current_screen = MENU_SCREEN) →
      (e2.current_screen = MAIN_SCREEN ∨ e2.current_screen = MENU_SCREEN) := by
    intro e e2 hc he
    have : e2.current_screen = e.current_screen := congrArg Prod.fst hc
    rw [this]; exact he
  refine ⟨hi d h, hd d h, ?_, ?_⟩
  · intro n
    induction n with
    | zero => rfl
    | succ n ih =>
      rw [Function.iterate_succ_apply', hi _ (hscreen d _ ih h), ih]
  · intro n
    induction n with
    | zero => rfl
    | succ n ih =>
      rw [Function.iterate_succ_apply', hd _ (hscreen d _ ih h), ih]

/-- Witness of C6: on the Menu screen with the default thresholds. -/
theorem C6_adjust_is_noop_outside_edit_witness :
    (Increment { Device.init with current_screen := MENU_SCREEN }).config
        = ({ Device.init with current_screen := MENU_SCREEN } : Device).config
    ∧ (Decrement { Device.init with current_screen := MENU_SCREEN }).config
        = ({ Device.init with current_screen := MENU_SCREEN } : Device).config
    ∧ (∀ n : Nat, (Increment^[n] { Device.init with current_screen := MENU_SCREEN }).config
        = ({ Device.init with current_screen := MENU_SCREEN } : Device).config)
    ∧ (∀ n : Nat, (Decrement^[n] { Device.init with current_screen := MENU_SCREEN }).config
        = ({ Device.init with current_screen := MENU_SCREEN } : Device).config) :=
  C6_adjust_is_noop_outside_edit { Device.init with current_screen := MENU_SCREEN }
    (Or.inr rfl)

set_option exponentiation.threshold 5000 in
/-- C7. For every pair of raw 16-bit codes the main loop computes
`temp = -45 + 175 * ((float)rawTemp / 65535.0)` and
`hum = 100 * ((float)rawHum / 65535.0)`, the quotient, product and sum being
`double` operations and the result a `float`; both results are finite and agree
with the exact values `-45 + 175 * (rawTemp / 65535)` and
`100 * (rawHum / 65535)` of the design to within `2^-16` and `2^-17` (the
resolution of a `float` at that magnitude).  The raw codes (0, 0) give exactly
-45.0 and 0.0, the raw codes (65535, 65535) exactly 130.0 and 100.0.  On a
successful read the loop applies the two conversions to the 16-bit codes
assembled from the bytes of the sensor. -/
theorem C7_conversion_formulas (rawTemp rawHum : Nat) (hT : rawTemp < 65536)
    (hH : rawHum < 65536) :
    convertTemperature rawTemp =
        Fp.convert binary32 (Fp.add binary64 (Fp.ofInt (-45))
          (Fp.mul binary64 (Fp.ofInt 175)
            (Fp.div binary64 (Fp.convert binary64 (Fp.ofU16 rawTemp)) (Fp.ofInt 65535))))
    ∧ convertHumidity rawHum =
        Fp.convert binary32 (Fp.mul binary64 (Fp.ofInt 100)
          (Fp.div binary64 (Fp.convert binary64 (Fp.ofU16 rawHum)) (Fp.ofInt 65535)))
    ∧ (∃ s T, convertTemperature rawTemp = Fp.fin s T)
    ∧ (∃ T, convertHumidity rawHum = Fp.fin false T)
    ∧ |Fp.toRat (convertTemperature rawTemp) - specTemperatureC rawTemp| ≤ 1 / 2 ^ 16
    ∧ |Fp.toRat (convertHumidity rawHum) - specHumidityPct rawHum| ≤ 1 / 2 ^ 17
    ∧ Fp.toRat (convertTemperature 0) = -45
    ∧ Fp.toRat (convertHumidity 0) = 0
    ∧ Fp.toRat (convertTemperature 65535) = 130
    ∧ Fp.toRat (convertHumidity 65535) = 100
    ∧ specTemperatureC 0 = -45 ∧ specHumidityPct 0 = 0
    ∧ specTemperatureC 65535 = 130 ∧ specHumidityPct 65535 = 100
    ∧ (∀ (b : Bus) (d : Device), d.current_screen = MAIN_SCREEN → b.write_ret = ESP_OK →
        b.read_ret = ESP_OK →
        b.rawTemperature < 65536 ∧ b.rawHumidity < 65536
        ∧ sensor_part b d =
          show_and_alert (convertTemperature b.rawTemperature) (convertHumidity b.rawHumidity)
            { d with temperature := b.rawTemperature, humidity := b.rawHumidity }) := by
  obtain ⟨s, T, hTfin, _, _⟩ := convertTemperature_close rawTemp hT
  obtain ⟨T2, hHfin, _, _⟩ := convertHumidity_close rawHum hH
  refine ⟨rfl, rfl, ⟨s, T, hTfin⟩, ⟨T2, hHfin⟩, convertTemperature_toRat rawTemp hT,
    convertHumidity_toRat rawHum hH, ?_, ?_, ?_, ?_, ?_, ?_, ?_, ?_, ?_⟩
  · rw [conversion_endpoints.1, Fp.toRat_fin]; norm_num [signed]
  · rw [conversion_endpoints.2.1, Fp.toRat_fin]; norm_num [signed]
  · rw [conversion_endpoints.2.2.1, Fp.toRat_fin]; norm_num [signed]
  · rw [conversion_endpoints.2.2.2, Fp.toRat_fin]; norm_num [signed]
  · norm_num [specTemperatureC]
  · norm_num [specHumidityPct]
  · norm_num [specTemperatureC]
  · norm_num [specHumidityPct]
  · intro b d hm hw hr
    exact ⟨Nat.mod_lt _ (by decide), Nat.mod_lt _ (by decide), sensor_part_ok b d hm hw hr⟩

/-- Witness of C7: the mid-scale raw codes (32768, 32768). -/
theorem C7_conversion_formulas_witness :
    (32768 < 65536)
    ∧ |Fp.toRat (convertTemperature 32768) - specTemperatureC 32768| ≤ 1 / 2 ^ 16
    ∧ |Fp.toRat (convertHumidity 32768) - specHumidityPct 32768| ≤ 1 / 2 ^ 17 :=
  ⟨by decide,
    (C7_conversion_formulas 32768 32768 (by decide) (by decide)).2.2.2.2.1,
    (C7_conversion_formulas 32768 32768 (by decide) (by decide)).2.2.2.2.2.1⟩

/-- C8. When the bus write or the bus read of `shtc1_read` returns an error, the
sensor-dependent part of the tick only logs the failure (and does nothing when
the screen is not Main): screen state and thresholds stay as the button
handling of that tick left them, the stale raw values are kept, and no publish
call is made during the tick. -/
theorem C8_failed_read_skips_sensor_work (p : Pins) (b : Bus) (d : Device)
    (h : b.write_ret ≠ ESP_OK ∨ b.read_ret ≠ ESP_OK) :
    (shtc1_read b (handle_buttons p d)).1 ≠ ESP_OK
    ∧ (tick p b d).config = (handle_buttons p d).config
    ∧ (tick p b d).temperature = d.temperature
    ∧ (tick p b d).humidity = d.humidity
    ∧ publishCount (tick p b d).trace = publishCount d.trace
    ∧ (tick p b d).trace =
        (handle_buttons p d).trace ++
          (if (handle_buttons p d).current_screen = MAIN_SCREEN
           then [Event.logReadFailure] else []) := by
  have hfail : ∀ e : Device, (shtc1_read b e).1 ≠ ESP_OK ∧ (shtc1_read b e).2 = e := by
    intro e
    unfold shtc1_read
    by_cases hw : b.write_ret = ESP_OK
    · have hr : b.read_ret ≠ ESP_OK := by
        rcases h with h | h
        · exact absurd hw h
        · exact h
      simp [hw, hr]
    · simp [hw]
  have hmain : ∀ e : Device, e.current_screen = MAIN_SCREEN →
      sensor_part b e = { e with trace := e.trace ++ [Event.logReadFailure] } := by
    intro e hm
    unfold sensor_part
    rw [if_pos hm, if_neg (hfail e).1, (hfail e).2]
  have hother : ∀ e : Device, e.current_screen ≠ MAIN_SCREEN → sensor_part b e = e := by
    intro e hm
    unfold sensor_part
    rw [if_neg hm]
  refine ⟨(hfail _).1, ?_⟩
  unfold tick
  by_cases hm : (handle_buttons p d).current_screen = MAIN_SCREEN
  · rw [hmain _ hm, if_pos hm]
    refine ⟨rfl, (handle_buttons_raw p d).1, (handle_buttons_raw p d).2, ?_, rfl⟩
    show publishCount ((handle_buttons p d).trace ++ [Event.logReadFailure]) = _
    rw [publishCount_append, handle_buttons_publishCount]
    rfl
  · rw [hother _ hm, if_neg hm, List.append_nil]
    exact ⟨rfl, (handle_buttons_raw p d).1, (handle_buttons_raw p d).2,
      handle_buttons_publishCount p d, rfl⟩

/-- Witness of C8: the bus write times out on the Main screen with no button pressed. -/
theorem C8_failed_read_skips_sensor_work_witness :
    (shtc1_read Bus.writeTimeout (handle_buttons Pins.idle Device.init)).1 ≠ ESP_OK
    ∧ (tick Pins.idle Bus.writeTimeout Device.init).config
        = (handle_buttons Pins.idle Device.init).config
    ∧ (tick Pins.idle Bus.writeTimeout Device.init).temperature = Device.init.temperature
    ∧ (tick Pins.idle Bus.writeTimeout Device.init).humidity = Device.init.humidity
    ∧ publishCount (tick Pins.idle Bus.writeTimeout Device.init).trace
        = publishCount Device.init.trace
    ∧ (tick Pins.idle Bus.writeTimeout Device.init).trace =
        (handle_buttons Pins.idle Device.init).trace ++
          (if (handle_buttons Pins.idle Device.init).current_screen = MAIN_SCREEN
           then [Event.logReadFailure] else []) :=
  C8_failed_read_skips_sensor_work Pins.idle Bus.writeTimeout Device.init
    (Or.inl (by decide))

/-- C9. On the Main screen, with no button active and a successful read of a
breaching reading on each of two consecutive ticks, every tick makes exactly one
publish call (two in total); the first tick leaves screen state and thresholds
unchanged, so nothing suppresses the second alert. -/
theorem C9_sustained_breach_publishes_every_tick (p1 p2 : Pins) (b1 b2 : Bus) (d : Device)
    (hmain : d.current_screen = MAIN_SCREEN)
    (hp1 : p1.mode = false ∧ p1.ok = false ∧ p1.up = false ∧ p1.down = false)
    (hp2 : p2.mode = false ∧ p2.ok = false ∧ p2.up = false ∧ p2.down = false)
    (hb1 : b1.write_ret = ESP_OK ∧ b1.read_ret = ESP_OK)
    (hb2 : b2.write_ret = ESP_OK ∧ b2.read_ret = ESP_OK)
    (hbreach1 : warning (convertTemperature b1.rawTemperature)
      (convertHumidity b1.rawHumidity) d = true)
    (hbreach2 : warning (convertTemperature b2.rawTemperature)
      (convertHumidity b2.rawHumidity) d = true) :
    (tick p1 b1 d).config = d.config
    ∧ publishCount (tick p1 b1 d).trace = publishCount d.trace + 1
    ∧ publishCount (tick p2 b2 (tick p1 b1 d)).trace = publishCount (tick p1 b1 d).trace + 1
    ∧ publishCount (tick p2 b2 (tick p1 b1 d)).trace = publishCount d.trace + 2
    ∧ (tick p2 b2 (tick p1 b1 d)).config = d.config := by
  have step : ∀ (p : Pins) (b : Bus) (e : Device), e.current_screen = MAIN_SCREEN →
      (p.mode = false ∧ p.ok = false ∧ p.up = false ∧ p.down = false) →
      (b.write_ret = ESP_OK ∧ b.read_ret = ESP_OK) →
      warning (convertTemperature b.rawTemperature) (convertHumidity b.rawHumidity) e = true →
      (tick p b e).config = e.config
      ∧ publishCount (tick p b e).trace = publishCount e.trace + 1 := by
    intro p b e he hp hb hbr
    unfold tick
    rw [handle_buttons_idle p e hp.1 hp.2.1 hp.2.2.1 hp.2.2.2, sensor_part_ok b e he hb.1 hb.2]
    refine ⟨show_and_alert_config _ _ _, ?_⟩
    rw [show_and_alert_trace]
    have hw : warning (convertTemperature b.rawTemperature) (convertHumidity b.rawHumidity)
        { e with temperature := b.rawTemperature, humidity := b.rawHumidity } = true := hbr
    rw [hw, publishCount_append]
    simp [publishCount]
  have h1 := step p1 b1 d hmain hp1 hb1 hbreach1
  have hc : (tick p1 b1 d).config = d.config := h1.1
  have hs : (tick p1 b1 d).current_screen = MAIN_SCREEN := by
    have : (tick p1 b1 d).current_screen = d.current_screen := congrArg Prod.fst hc
    rw [this, hmain]
  have hbr2 : warning (convertTemperature b2.rawTemperature)
      (convertHumidity b2.rawHumidity) (tick p1 b1 d) = true := by
    have hth : (tick p1 b1 d).temp_threshold_high = d.temp_threshold_high :=
      congrArg (fun c => c.2.1) hc
    have htl : (tick p1 b1 d).temp_threshold_low = d.temp_threshold_low :=
      congrArg (fun c => c.2.2.1) hc
    have hhh : (tick p1 b1 d).hum_threshold_high = d.hum_threshold_high :=
      congrArg (fun c => c.2.2.2.1) hc
    have hhl : (tick p1 b1 d).hum_threshold_low = d.hum_threshold_low :=
      congrArg (fun c => c.2.2.2.2) hc
    unfold warning tempOutOfRange humOutOfRange at hbreach2 ⊢
    rw [hth, htl, hhh, hhl]
    exact hbreach2
  have h2 := step p2 b2 (tick p1 b1 d) hs hp2 hb2 hbr2
  refine ⟨h1.1, h1.2, h2.2, ?_, ?_⟩
  · rw [h2.2, h1.2]
  · rw [h2.1, h1.1]

set_option maxRecDepth 100000 in
set_option exponentiation.threshold 5000 in
/-- Witness of C9: two idle ticks reading the raw codes (0, 0) against the
default thresholds. -/
theorem C9_sustained_breach_publishes_every_tick_witness :
    (tick Pins.idle Bus.allZero Device.init).config = Device.init.config
    ∧ publishCount (tick Pins.idle Bus.allZero Device.init).trace
        = publishCount Device.init.trace + 1
    ∧ publishCount (tick Pins.idle Bus.allZero (tick Pins.idle Bus.allZero Device.init)).trace
        = publishCount (tick Pins.idle Bus.allZero Device.init).trace + 1
    ∧ publishCount (tick Pins.idle Bus.allZero (tick Pins.idle Bus.allZero Device.init)).trace
        = publishCount Device.init.trace + 2
    ∧ (tick Pins.idle Bus.allZero (tick Pins.idle Bus.allZero Device.init)).config
        = Device.init.config :=
  C9_sustained_breach_publishes_every_tick Pins.idle Pins.idle Bus.allZero Bus.allZero
    Device.init rfl (by decide) (by decide) (by decide) (by decide) (by decide) (by decide)

/-- C10. Whatever the eight sampled levels, `handle_buttons` acts on at most one
input, the first active one in the order Mode, Ok, Up, Down: it performs that
input's action (`Next`, `Confirm`, `Increment`, `Decrement`) exactly when that
same input is still active at the re-sample, and otherwise does nothing at all
(state, thresholds and trace unchanged), even when a lower-priority input is
active. -/
theorem C10_first_active_input_wins (p : Pins) (d : Device) :
    handle_buttons p d = perform (specPoll p) d
    ∧ (specPoll p = ButtonAction.Next ↔ (p.mode = true ∧ p.mode_again = true))
    ∧ (specPoll p = ButtonAction.Confirm ↔
        (p.mode = false ∧ p.ok = true ∧ p.ok_again = true))
    ∧ (specPoll p = ButtonAction.Increment ↔
        (p.mode = false ∧ p.ok = false ∧ p.up = true ∧ p.up_again = true))
    ∧ (specPoll p = ButtonAction.Decrement ↔
        (p.mode = false ∧ p.ok = false ∧ p.up = false ∧ p.down = true ∧ p.down_again = true))
    ∧ (specPoll p = ButtonAction.None → handle_buttons p d = d)
    ∧ (p.mode = true → p.mode_again = false → handle_buttons p d = d)
    ∧ (p.mode = false → p.ok = true → p.ok_again = false → handle_buttons p d = d)
    ∧ (p.mode = false → p.ok = false → p.up = true → p.up_again = false →
        handle_buttons p d = d) := by
  cases p with
  | mk m o u dn m2 o2 u2 dn2 =>
    cases m <;> cases o <;> cases u <;> cases dn <;> cases m2 <;> cases o2 <;> cases u2 <;>
      cases dn2 <;>
      simp [handle_buttons, specPoll, perform, Next, Confirm, Increment, Decrement, Pins.idle]

end Warehouse
